import Mathlib

/-!
EFI capsule update driver (`efi_capsule_update.c`)

A shallow embedding of `arch/x86/platform/efi/efi_capsule_update.c` and the
properties of its chunking loop, descriptor table and teardown.

Machine integers are natural numbers reduced modulo `2^32` where the C code
computes in `u32` (the Quark X1000 is a 32-bit x86 target, so `u32`, `size_t`
and `unsigned long` all have 32 bits).  Memory allocation, the firmware
loader and the platform service are external: they are given by an `Env`,
and every call the driver makes is recorded in a trace of `Event`s.
-/

namespace EfiCapsule

/-! ## Constants -/

/-- The modulus of `u32` arithmetic. -/
def U32 : Nat := 2 ^ 32

/-- Source: `#define MAX_PATH 256`. -/
def MAX_PATH : Nat := 256

/-- Modelled from the spec: `PAGE_SIZE` is defined outside this file
(`asm/page_types.h`); the chunk capacity is one memory page, 4096 bytes on x86. -/
def PAGE_SIZE : Nat := 4096

/-- Source: `#define MAX_CHUNK PAGE_SIZE`. -/
def MAX_CHUNK : Nat := PAGE_SIZE

/-- Source: `#define CSH_HDR_SIZE 0x400`. -/
def CSH_HDR_SIZE : Nat := 0x400

/-- Error number `ENODEV` of `linux/errno.h`. -/
def ENODEV : Int := 19

/-- Error number `ENOMEM` of `linux/errno.h`. -/
def ENOMEM : Int := 12

/-- Error number `EINVAL` of `linux/errno.h`. -/
def EINVAL : Int := 22

/-- Status `EFI_SUCCESS` of `linux/efi.h`. -/
def EFI_SUCCESS : Int := 0

/-- Size in bytes of `efi_blk_desc_t`: two `u64` fields. -/
def sizeof_efi_blk_desc_t : Nat := 16

/-! ## Data model -/

/-- Source: `efi_blk_desc_t`, a descriptor entry: a length and the physical
address of a data block (both `u64`). -/
structure efi_blk_desc_t where
  length : Nat
  data_block : Nat
deriving DecidableEq, Repr

/-- Source: `struct firmware` as the driver uses it.  `data k` is the byte at
address `fw_entry->data + k`; the image is the first `size` bytes, and reads
at `k ≥ size` return whatever memory follows the image. -/
structure firmware where
  size : Nat
  data : Nat → Nat

/-- The module's global variables `fpath`, `path_set` and `csh_jump`.
`csh_jump` is an `int` that only ever holds `0` or `CSH_HDR_SIZE`. -/
structure State where
  fpath : List Nat
  path_set : Bool
  csh_jump : Nat
deriving DecidableEq, Repr

/-- The module's globals at load time: `fpath` zeroed, `path_set = false`,
`csh_jump = CSH_HDR_SIZE`. -/
def State.init : State :=
  { fpath := List.replicate MAX_PATH 0, path_set := false, csh_jump := CSH_HDR_SIZE }

/-- The calls the driver makes to the rest of the kernel and to the platform. -/
inductive Event where
  | request_firmware (name : List Nat)
  | kzalloc (size : Nat)
  | kmalloc (size : Nat)
  | update_capsule (chdr : Nat) (count : Nat) (sg_list : Nat)
  | kfree (ptr : Nat)
  | release_firmware
deriving DecidableEq, Repr

/-- The external collaborators of the driver.  Pointers are natural numbers,
`0` is `NULL`.
* `request_firmware name` is the status and the loaded image (`none` is a
  `NULL` `fw_entry`);
* `kzalloc size` is the pointer returned for the descriptor table;
* `kmalloc k` is the pointer returned by the `k`-th chunk allocation of an
  attempt;
* `update_capsule chdr count sg` is the platform status, converted to `int`;
* `__pa` and `phys_to_virt` are the address translations of `asm/page.h` and
  `asm/io.h`;
* `hdr_flags bs` decodes the field `flags` of an `efi_capsule_header_t`
  (`linux/efi.h`) from the bytes `bs` found at the header pointer. -/
structure Env where
  request_firmware : List Nat → Int × Option firmware
  kzalloc : Nat → Nat
  kmalloc : Nat → Nat
  update_capsule : Nat → Nat → Nat → Int
  __pa : Nat → Nat
  phys_to_virt : Nat → Nat
  hdr_flags : List Nat → Nat

/-- A chunk buffer: the pointer returned by `kmalloc`, the `data_len` computed
for it and the `data_len` bytes that `memcpy` wrote at its start. -/
structure Chunk where
  base : Nat
  data_len : Nat
  bytes : List Nat
deriving DecidableEq, Repr

/-- The locals of `efi_capsule_trigger_update` that the read loop changes,
with the chunks allocated so far and the calls the loop made so far. -/
structure LoopState where
  i : Nat
  offset : Nat
  chdr : Option Nat
  desc_block : List efi_blk_desc_t
  chunks : List Chunk
  trace : List Event
deriving DecidableEq, Repr

/-- How the read loop was left: by its condition, by `goto done` after a failed
`kmalloc`, or by `goto done` from the sanity check. -/
inductive LoopExit where
  | completed
  | alloc_fail
  | driver_bug
deriving DecidableEq, Repr

/-- What one pass through the loop body does: it falls through to `i++` with
new locals, or leaves the loop by `goto done`. -/
inductive Step where
  | next (s : LoopState)
  | exit (e : LoopExit) (s : LoopState)
deriving DecidableEq, Repr

/-! ## The read loop -/

/-- Source: `data_len = offset < total_size - MAX_CHUNK ? MAX_CHUNK :
total_size - offset;` in `u32` arithmetic. -/
def read_len (total_size offset : Nat) : Nat :=
  if offset < (total_size + U32 - MAX_CHUNK) % U32 then MAX_CHUNK % U32
  else (total_size + U32 - offset) % U32

/-- Source: the body of the read loop, lines 83-118, followed by `i++`. -/
def loop_body (env : Env) (fw : firmware) (csh_jump nblocks total_size : Nat)
    (s : LoopState) : Step :=
  let data_len := read_len total_size s.offset
  let data := env.kmalloc s.i
  let tr := s.trace ++ [Event.kmalloc MAX_CHUNK]
  if data = 0 then
    Step.exit LoopExit.alloc_fail { s with trace := tr }
  else
    let bytes := (List.range' s.offset data_len).map fw.data
    let offset' := (s.offset + data_len) % U32
    let chunks' := s.chunks ++ [{ base := data, data_len := data_len, bytes := bytes }]
    if s.i ≥ nblocks then
      Step.exit LoopExit.driver_bug
        { s with offset := offset', chunks := chunks', trace := tr }
    else
      match s.chdr with
      | none =>
        Step.next
          { i := s.i + 1
            offset := offset'
            chdr := some (data + csh_jump)
            desc_block := s.desc_block.set s.i
              { length := (data_len + U32 - csh_jump) % U32
                data_block := env.__pa (data + csh_jump) }
            chunks := chunks'
            trace := tr }
      | some p =>
        Step.next
          { i := s.i + 1
            offset := offset'
            chdr := some p
            desc_block := s.desc_block.set s.i
              { length := data_len, data_block := env.__pa data }
            chunks := chunks'
            trace := tr }

/-- Source: the loop `for (i = 0; i < nblocks && offset < total_size; i++)` of
`efi_capsule_trigger_update`, lines 82-119.  The first argument bounds the
number of iterations; `nblocks` iterations always suffice
(`read_loop_fuel`). -/
def read_loop (env : Env) (fw : firmware) (csh_jump nblocks total_size : Nat) :
    Nat → LoopState → LoopExit × LoopState
  | 0, s => (LoopExit.completed, s)
  | fuel + 1, s =>
    if s.i < nblocks ∧ s.offset < total_size then
      match loop_body env fw csh_jump nblocks total_size s with
      | Step.next s' => read_loop env fw csh_jump nblocks total_size fuel s'
      | Step.exit e s' => (e, s')
    else
      (LoopExit.completed, s)

/-- Source: `nblocks = (fw_entry->size/MAX_CHUNK) + 2;`. -/
def nblocks_of (fw : firmware) : Nat := (fw.size / MAX_CHUNK + 2) % U32

/-- Source: `total_size = fw_entry->size;`. -/
def total_size_of (fw : firmware) : Nat := fw.size % U32

/-- The locals on entry to the read loop: `i = 0`, `offset = 0`, `chdr = NULL`
and the zero-filled table of `nblocks` entries returned by `kzalloc`. -/
def loop_init (nblocks : Nat) : LoopState :=
  { i := 0, offset := 0, chdr := none
    desc_block := List.replicate nblocks { length := 0, data_block := 0 }
    chunks := [], trace := [] }

/-- The read loop of `efi_capsule_trigger_update` run on a loaded image with
the header-skip offset `csh_jump`. -/
def read_in_data (env : Env) (fw : firmware) (csh_jump : Nat) : LoopExit × LoopState :=
  read_loop env fw csh_jump (nblocks_of fw) (total_size_of fw) (nblocks_of fw)
    (loop_init (nblocks_of fw))

/-! ## The trigger -/

/-- The outcome of lines 66-152 of `efi_capsule_trigger_update`: the value of
`ret` and the calls made, in order. -/
structure Submission where
  ret : Int
  trace : List Event
deriving DecidableEq, Repr

/-- The outcome of a call of `efi_capsule_trigger_update` or
`efi_capsule_update_store`: the value returned, the calls made, in order,
and the module's globals `fpath`, `path_set` and `csh_jump` as the call
leaves them. -/
structure Result where
  ret : Int
  trace : List Event
  globals : State
deriving DecidableEq, Repr

/-- The conversion of a `size_t` to the 32-bit `ssize_t` that the sysfs store
callbacks return: values from `2^31` on come back negative. -/
def to_ssize (count : Nat) : Int :=
  if count % U32 < 2 ^ 31 then ((count % U32 : Nat) : Int)
  else ((count % U32 : Nat) : Int) - (U32 : Int)

/-- Source: the loop at label `done`, lines 143-146: every table entry with a
non-zero `data_block` is passed to `kfree` through `phys_to_virt` of its low
32 bits. -/
def free_blocks (env : Env) (desc_block : List efi_blk_desc_t) : List Event :=
  desc_block.filterMap fun d =>
    if d.data_block ≠ 0 then some (Event.kfree (env.phys_to_virt (d.data_block % U32)))
    else none

/-- Source: labels `done` and `done_close`, lines 141-152: the block loop,
`kfree(desc_block)` and `release_firmware`. -/
def done (env : Env) (desc_block_ptr : Nat) (desc_block : List efi_blk_desc_t) :
    List Event :=
  free_blocks env desc_block ++
    (if desc_block_ptr ≠ 0 then [Event.kfree desc_block_ptr] else []) ++
    [Event.release_firmware]

/-- Source: `chdr->flags` at line 137, read through the header pointer
`&data[csh_jump]` into the first chunk. -/
def chdr_flags (env : Env) (csh_jump : Nat) (chunks : List Chunk) : Nat :=
  match chunks with
  | [] => 0
  | c :: _ => env.hdr_flags (c.bytes.drop csh_jump)

/-- Source: lines 66-152 of `efi_capsule_trigger_update`, the part that runs
once `request_firmware` has loaded the image `fw`. -/
def submit_firmware (env : Env) (csh_jump : Nat) (fw : firmware) : Submission :=
  let nblocks := nblocks_of fw
  let alloc := (nblocks * sizeof_efi_blk_desc_t) % U32
  let desc_block := env.kzalloc alloc
  let tr1 := [Event.kzalloc alloc]
  if desc_block = 0 then
    { ret := -ENOMEM, trace := tr1 ++ [Event.release_firmware] }
  else
    match read_in_data env fw csh_jump with
    | (LoopExit.alloc_fail, s) =>
      { ret := -ENOMEM, trace := tr1 ++ s.trace ++ done env desc_block s.desc_block }
    | (LoopExit.driver_bug, s) =>
      { ret := -EINVAL, trace := tr1 ++ s.trace ++ done env desc_block s.desc_block }
    | (LoopExit.completed, s) =>
      if s.i > (nblocks + U32 - 1) % U32 then
        { ret := -EINVAL, trace := tr1 ++ s.trace ++ done env desc_block s.desc_block }
      else
        let status := env.update_capsule (s.chdr.getD 0) 1 (env.__pa desc_block)
        let tr2 := tr1 ++ s.trace ++
          [Event.update_capsule (s.chdr.getD 0) 1 (env.__pa desc_block)]
        let ret := if status ≠ EFI_SUCCESS then status else 0
        if s.chdr ≠ none ∧ chdr_flags env csh_jump s.chunks &&& 0x10000 ≠ 0 then
          { ret := ret, trace := tr2 ++ [Event.release_firmware] }
        else
          { ret := ret, trace := tr2 ++ done env desc_block s.desc_block }

/-- Source: `efi_capsule_trigger_update`, lines 48-153.  The function reads
the globals `path_set`, `fpath` and `csh_jump`; `globals` is their value at
each `return`. -/
def efi_capsule_trigger_update (env : Env) (st : State) : Result :=
  if st.path_set = false then
    { ret := -ENODEV, trace := [], globals := st }
  else
    match env.request_firmware st.fpath with
    | (ret, none) =>
      { ret := ret, trace := [Event.request_firmware st.fpath], globals := st }
    | (ret, some fw) =>
      if ret ≠ 0 then
        { ret := ret, trace := [Event.request_firmware st.fpath], globals := st }
      else
        let r := submit_firmware env st.csh_jump fw
        { ret := r.ret, trace := Event.request_firmware st.fpath :: r.trace, globals := st }

/-! ## The sysfs callbacks -/

/-- The bytes of a C string: the bytes of `mem` before its first NUL. -/
def c_string (mem : List Nat) : List Nat := mem.takeWhile fun b => b ≠ 0

/-- The text that the kernel's `vsnprintf` (`lib/vsprintf.c`, outside this
file) produces for the format `fmt` when no argument is passed: ordinary
bytes are copied, `%%` gives one `%`, and any other `%` starts a conversion
specification that is incomplete or reads an argument that was not passed;
the text is then left undetermined (`none`). -/
def format_no_args : List Nat → Option (List Nat)
  | [] => some []
  | [37] => none
  | 37 :: 37 :: rest => (format_no_args rest).map fun out => 37 :: out
  | 37 :: _ :: _ => none
  | c :: rest => (format_no_args rest).map fun out => c :: out

/-- The call `snprintf(buf, size, fmt)` without arguments: the bytes written to
`buf` before the terminating NUL (at most `size - 1`) and the value returned,
the length of the whole text. -/
def snprintf_no_args (size : Nat) (fmt : List Nat) : Option (List Nat × Int) :=
  (format_no_args fmt).map fun out => (out.take (size - 1), (out.length : Int))

/-- Source: `efi_capsule_csh_jump_show`, lines 160-164:
`snprintf(buf, sizeof(fpath), "%d\n", csh_jump > 0)`.  The bytes written
to `buf` and the value returned. -/
def efi_capsule_csh_jump_show (st : State) : List Nat × Int :=
  if st.csh_jump > 0 then ([49, 10], 2) else ([48, 10], 2)

/-- Source: `efi_capsule_csh_jump_store`, lines 171-179.  `buf` is `none` for a
`NULL` pointer, and `b k` is the byte `buf[k]`; `return count;` converts the
`size_t` to the `ssize_t` of the return type. -/
def efi_capsule_csh_jump_store (st : State) (buf : Option (Nat → Nat)) (count : Nat) :
    State × Int :=
  match buf with
  | some b =>
    if b 0 = 48 then ({ st with csh_jump := 0 }, to_ssize count)
    else ({ st with csh_jump := CSH_HDR_SIZE }, to_ssize count)
  | none => ({ st with csh_jump := CSH_HDR_SIZE }, to_ssize count)

/-- Source: `efi_capsule_path_show`, lines 189-193:
`snprintf(buf, sizeof(fpath), fpath)`, with `fpath` as the format. -/
def efi_capsule_path_show (st : State) : Option (List Nat × Int) :=
  snprintf_no_args MAX_PATH (c_string st.fpath)

/-- Source: `efi_capsule_path_store`, lines 200-211.  `buf k` is the byte
`buf[k]`. -/
def efi_capsule_path_store (st : State) (buf : Nat → Nat) (count : Nat) : State × Int :=
  if count > MAX_PATH - 1 then
    (st, -EINVAL)
  else
    ({ st with
        fpath := (List.range' 0 count).map buf ++ List.replicate (MAX_PATH - count) 0
        path_set := true },
      (count : Int))

/-- Source: `efi_capsule_update_store`, lines 221-227:
`return ret == 0 ? count : ret;`, with `count` converted to `ssize_t`. -/
def efi_capsule_update_store (env : Env) (st : State) (count : Nat) : Result :=
  let r := efi_capsule_trigger_update env st
  { ret := if r.ret = 0 then to_ssize count else r.ret
    trace := r.trace
    globals := r.globals }

/-- An operation on the control surface: a write to `capsule_path`, a write to
`csh_jump`, or a write to `capsule_update` in some environment. -/
inductive Op where
  | path_store (buf : Nat → Nat) (count : Nat)
  | csh_jump_store (buf : Option (Nat → Nat)) (count : Nat)
  | update_store (env : Env) (count : Nat)

/-- The globals after an operation: those that the callback leaves. -/
def Op.apply (st : State) : Op → State
  | Op.path_store buf count => (efi_capsule_path_store st buf count).1
  | Op.csh_jump_store buf count => (efi_capsule_csh_jump_store st buf count).1
  | Op.update_store env count => (efi_capsule_update_store env st count).globals

/-- The globals after a sequence of operations. -/
def run_ops (st : State) (ops : List Op) : State := ops.foldl Op.apply st

/-! ## Observations on a run -/

/-- Recognises the platform acceptance call `efi.update_capsule`. -/
def is_update_capsule : Event → Bool
  | Event.update_capsule _ _ _ => true
  | _ => false

/-- Whether the run invoked the platform acceptance call. -/
def calls_platform (r : Result) : Bool := r.trace.any is_update_capsule

/-- The pointers passed to `kfree`, in order. -/
def kfrees (tr : List Event) : List Nat :=
  tr.filterMap fun e =>
    match e with
    | Event.kfree p => some p
    | _ => none

/-- The pointer `desc_block` returned by `kzalloc` for the image `fw`. -/
def desc_block_ptr (env : Env) (fw : firmware) : Nat :=
  env.kzalloc ((nblocks_of fw * sizeof_efi_blk_desc_t) % U32)

/-- The status of the platform call `efi.update_capsule(&chdr, 1,
__pa(desc_block))` for the image `fw`. -/
def platform_status (env : Env) (csh_jump : Nat) (fw : firmware) : Int :=
  env.update_capsule ((read_in_data env fw csh_jump).2.chdr.getD 0) 1
    (env.__pa (desc_block_ptr env fw))

/-- Source: the test `chdr != NULL && chdr->flags & 0x10000` of line 137, on the
locals left by the read loop. -/
def persist_requested (env : Env) (csh_jump : Nat) (fw : firmware) : Bool :=
  decide ((read_in_data env fw csh_jump).2.chdr ≠ none ∧
    chdr_flags env csh_jump (read_in_data env fw csh_jump).2.chunks &&& 0x10000 ≠ 0)

/-- The bytes of the image: the first `size` bytes at `fw_entry->data`. -/
def image_bytes (fw : firmware) : List Nat := (List.range' 0 fw.size).map fw.data

/-- The valid bytes of the chunks (the first `data_len` bytes of each), in order. -/
def valid_bytes (s : LoopState) : List Nat := (s.chunks.map Chunk.bytes).flatten

/-- The descriptor entries written by the loop: entries `0 .. i-1`. -/
def written (s : LoopState) : List efi_blk_desc_t := s.desc_block.take s.i

/-- The loop condition `i < nblocks && offset < total_size`. -/
def loop_cond (nblocks total_size : Nat) (s : LoopState) : Prop :=
  s.i < nblocks ∧ s.offset < total_size

/-- The property of a written descriptor entry: its length is positive and at
most one chunk. -/
def entry_ok (d : efi_blk_desc_t) : Prop := 0 < d.length ∧ d.length ≤ MAX_CHUNK

/-- The descriptor entry that the specification gives for chunk number `j`:
for chunk 0 the address of the chunk base plus the skip and the valid length
minus the skip, for every later chunk the address of the chunk base and the
valid length. -/
def spec_entry (env : Env) (csh_jump : Nat) (j : Nat) (c : Chunk) : efi_blk_desc_t :=
  if j = 0 then
    { length := c.data_len - csh_jump, data_block := env.__pa (c.base + csh_jump) }
  else
    { length := c.data_len, data_block := env.__pa c.base }

/-- The environment `env` with a platform that returns `status`. -/
def with_status (env : Env) (status : Int) : Env :=
  { env with update_capsule := fun _ _ _ => status }

/-! ## Sample inputs -/

/-- The field `flags` of `efi_capsule_header_t` as laid out in `linux/efi.h`: a
little-endian `u32` at byte 20, after the 16-byte GUID and `headersize`. -/
def capsule_flags (bs : List Nat) : Nat :=
  bs[20]?.getD 0 + 256 * bs[21]?.getD 0 + 65536 * bs[22]?.getD 0 + 16777216 * bs[23]?.getD 0

/-- A 32-bit x86 environment with `PAGE_OFFSET = 0xC0000000` in which every
allocation succeeds, the loader returns `fw` and the platform returns
`status`. -/
def sample_env (fw : firmware) (status : Int) : Env :=
  { request_firmware := fun _ => (0, some fw)
    kzalloc := fun _ => 0xC2000000
    kmalloc := fun k => 0xC1000000 + 4096 * k
    update_capsule := fun _ _ _ => status
    __pa := fun v => v - 0xC0000000
    phys_to_virt := fun p => p + 0xC0000000
    hdr_flags := capsule_flags }

/-- An image of `L` zero bytes, followed in memory by zero bytes. -/
def zero_image (L : Nat) : firmware := { size := L, data := fun _ => 0 }

/-- An image of `L` bytes whose capsule header, at offset `0x400`, has the
flags word `0x10000`: byte `0x400 + 22` is `1`, all others are `0`. -/
def persist_image (L : Nat) : firmware :=
  { size := L, data := fun k => if k = 0x400 + 22 then 1 else 0 }

/-- The environment `sample_env fw status` in which the second chunk
allocation fails. -/
def oom_env (fw : firmware) (status : Int) : Env :=
  { sample_env fw status with kmalloc := fun k => if k = 0 then 0xC1000000 else 0 }

/-- A buffer holding the bytes `bs`, followed by zero bytes. -/
def buf_of (bs : List Nat) : Nat → Nat := fun k => bs.getD k 0

/-- The globals after the name `fwA` was written, header skip enabled. -/
def st_skip : State :=
  { fpath := [102, 119, 65] ++ List.replicate 253 0, path_set := true
    csh_jump := CSH_HDR_SIZE }

/-- The globals after the name `fwA` was written, header skip disabled. -/
def st_noskip : State :=
  { fpath := [102, 119, 65] ++ List.replicate 253 0, path_set := true, csh_jump := 0 }

/-! ## Reasoning about the read loop -/

/-- A loop invariant `P` that the body preserves, and a postcondition `Q` that
holds at each of the ways out, give `Q` at the end of the loop. -/
theorem read_loop_post (env : Env) (fw : firmware) (csh N T : Nat)
    (P : LoopState → Prop) (Q : LoopExit → LoopState → Prop)
    (hnext : ∀ s s', P s → loop_cond N T s →
      loop_body env fw csh N T s = Step.next s' → P s' ∧ s'.i = s.i + 1)
    (hexit : ∀ s e s', P s → loop_cond N T s →
      loop_body env fw csh N T s = Step.exit e s' → Q e s')
    (hdone : ∀ s, P s → ¬ loop_cond N T s → Q LoopExit.completed s) :
    ∀ fuel s, N ≤ s.i + fuel → P s →
      Q (read_loop env fw csh N T fuel s).1 (read_loop env fw csh N T fuel s).2 := by
  intro fuel
  induction fuel with
  | zero =>
    intro s hf hP
    simp only [read_loop]
    apply hdone s hP
    intro hc
    have := hc.1
    omega
  | succ n ih =>
    intro s hf hP
    simp only [read_loop]
    by_cases hc : s.i < N ∧ s.offset < T
    · rw [if_pos hc]
      cases hb : loop_body env fw csh N T s with
      | next s' =>
        obtain ⟨hP', hi⟩ := hnext s s' hP hc hb
        exact ih s' (by omega) hP'
      | exit e s' => exact hexit s e s' hP hc hb
    · rw [if_neg hc]
      exact hdone s hP hc

/-- The four ways through the loop body. -/
theorem loop_body_cases (env : Env) (fw : firmware) (csh N T : Nat) (s : LoopState) :
    (env.kmalloc s.i = 0 ∧ loop_body env fw csh N T s =
        Step.exit LoopExit.alloc_fail { s with trace := s.trace ++ [Event.kmalloc MAX_CHUNK] }) ∨
    (env.kmalloc s.i ≠ 0 ∧ N ≤ s.i ∧ ∃ s', loop_body env fw csh N T s =
        Step.exit LoopExit.driver_bug s' ∧ s'.i = s.i ∧ s'.desc_block = s.desc_block ∧
          s'.trace = s.trace ++ [Event.kmalloc MAX_CHUNK]) ∨
    (env.kmalloc s.i ≠ 0 ∧ s.i < N ∧ s.chdr = none ∧ loop_body env fw csh N T s =
        Step.next
          { i := s.i + 1
            offset := (s.offset + read_len T s.offset) % U32
            chdr := some (env.kmalloc s.i + csh)
            desc_block := s.desc_block.set s.i
              { length := (read_len T s.offset + U32 - csh) % U32
                data_block := env.__pa (env.kmalloc s.i + csh) }
            chunks := s.chunks ++ [{ base := env.kmalloc s.i, data_len := read_len T s.offset
                                     bytes := (List.range' s.offset (read_len T s.offset)).map fw.data }]
            trace := s.trace ++ [Event.kmalloc MAX_CHUNK] }) ∨
    (env.kmalloc s.i ≠ 0 ∧ s.i < N ∧ (∃ p, s.chdr = some p) ∧ loop_body env fw csh N T s =
        Step.next
          { i := s.i + 1
            offset := (s.offset + read_len T s.offset) % U32
            chdr := s.chdr
            desc_block := s.desc_block.set s.i
              { length := read_len T s.offset, data_block := env.__pa (env.kmalloc s.i) }
            chunks := s.chunks ++ [{ base := env.kmalloc s.i, data_len := read_len T s.offset
                                     bytes := (List.range' s.offset (read_len T s.offset)).map fw.data }]
            trace := s.trace ++ [Event.kmalloc MAX_CHUNK] }) := by
  unfold loop_body
  by_cases hk : env.kmalloc s.i = 0
  · left; simp [hk]
  · right
    by_cases hN : N ≤ s.i
    · left; simp [hk, hN]
    · right
      cases hc : s.chdr with
      | none => left; simp [hk, hN, Nat.lt_of_not_le hN]
      | some p => right; simp [hk, hN, Nat.lt_of_not_le hN]

/-- A pass through the loop body that falls through increments `i`. -/
theorem loop_body_next_i (env : Env) (fw : firmware) (csh N T : Nat) (s s' : LoopState)
    (hb : loop_body env fw csh N T s = Step.next s') : s'.i = s.i + 1 := by
  rcases loop_body_cases env fw csh N T s with h | h | h | h
  · rw [h.2] at hb; cases hb
  · obtain ⟨_, _, s'', h2, _⟩ := h
    rw [h2] at hb; cases hb
  · rw [h.2.2.2] at hb; cases hb; rfl
  · rw [h.2.2.2] at hb; cases hb; rfl

/-- The iteration bound of `read_loop` is never what stops the loop: once it
covers the `nblocks - i` iterations that the loop condition allows, any larger
bound gives the same result.  In particular `read_in_data`, which runs the
loop with the bound `nblocks`, is the loop of the source. -/
theorem read_loop_fuel (env : Env) (fw : firmware) (csh N T : Nat) :
    ∀ fuel s, N ≤ s.i + fuel → ∀ k,
      read_loop env fw csh N T (fuel + k) s = read_loop env fw csh N T fuel s := by
  intro fuel
  induction fuel with
  | zero =>
    intro s hf k
    cases k with
    | zero => rfl
    | succ k =>
      have hc : ¬ (s.i < N ∧ s.offset < T) := by
        intro hc; have := hc.1; omega
      rw [Nat.zero_add]
      simp only [read_loop, if_neg hc]
  | succ n ih =>
    intro s hf k
    rw [show n + 1 + k = (n + k) + 1 by omega]
    simp only [read_loop]
    by_cases hc : s.i < N ∧ s.offset < T
    · rw [if_pos hc, if_pos hc]
      cases hb : loop_body env fw csh N T s with
      | next s' =>
        have hi := loop_body_next_i env fw csh N T s s' hb
        exact ih s' (by omega) k
      | exit e s' => rfl
    · rw [if_neg hc, if_neg hc]

/-- Within the image the computed `data_len` is positive and at most one chunk. -/
theorem read_len_bounds (T o : Nat) (hT : T < U32) (ho : o < T) :
    0 < read_len T o ∧ read_len T o ≤ MAX_CHUNK := by
  unfold read_len
  unfold U32 at *
  unfold MAX_CHUNK PAGE_SIZE
  split
  · norm_num
  · rename_i h
    have h2 : (T + 2 ^ 32 - o) % 2 ^ 32 = T - o := by
      rw [show T + 2 ^ 32 - o = (T - o) + 2 ^ 32 by omega, Nat.add_mod_right]
      exact Nat.mod_eq_of_lt (by omega)
    rw [h2]
    by_cases hc : 4096 ≤ T
    · have h3 : (T + 2 ^ 32 - 4096) % 2 ^ 32 = T - 4096 := by
        rw [show T + 2 ^ 32 - 4096 = (T - 4096) + 2 ^ 32 by omega, Nat.add_mod_right]
        exact Nat.mod_eq_of_lt (by omega)
      rw [h3] at h
      omega
    · have h3 : (T + 2 ^ 32 - 4096) % 2 ^ 32 = T + 2 ^ 32 - 4096 :=
        Nat.mod_eq_of_lt (by omega)
      rw [h3] at h
      omega

/-- The first chunk of a non-empty image always gets `data_len = MAX_CHUNK`. -/
theorem read_len_first (T : Nat) (hT : T < U32) (h0 : 0 < T) :
    read_len T 0 = MAX_CHUNK := by
  unfold read_len
  unfold U32 at *
  unfold MAX_CHUNK PAGE_SIZE
  by_cases hc : 4096 ≤ T
  · have h3 : (T + 2 ^ 32 - 4096) % 2 ^ 32 = T - 4096 := by
      rw [show T + 2 ^ 32 - 4096 = (T - 4096) + 2 ^ 32 by omega, Nat.add_mod_right]
      exact Nat.mod_eq_of_lt (by omega)
    rw [h3]
    split
    · norm_num
    · have h2 : (T + 2 ^ 32 - 0) % 2 ^ 32 = T := by
        rw [Nat.sub_zero, Nat.add_mod_right]
        exact Nat.mod_eq_of_lt hT
      rw [h2]; omega
  · have h3 : (T + 2 ^ 32 - 4096) % 2 ^ 32 = T + 2 ^ 32 - 4096 :=
      Nat.mod_eq_of_lt (by omega)
    rw [h3, if_pos (by omega)]
    norm_num

theorem total_size_lt (fw : firmware) : total_size_of fw < U32 :=
  Nat.mod_lt _ (by unfold U32; norm_num)

/-- The number of chunks consumed never exceeds `nblocks`, however the loop is left. -/
theorem read_loop_i_le (env : Env) (fw : firmware) (csh N T : Nat) (fuel : Nat)
    (s : LoopState) (hf : N ≤ s.i + fuel) (hi : s.i ≤ N) :
    (read_loop env fw csh N T fuel s).2.i ≤ N := by
  refine read_loop_post env fw csh N T (fun s => s.i ≤ N) (fun _ s => s.i ≤ N)
    ?_ ?_ ?_ fuel s hf hi
  · intro s s' hP hc hb
    rcases loop_body_cases env fw csh N T s with h | h | h | h
    · rw [h.2] at hb; cases hb
    · obtain ⟨_, _, s'', h2, _⟩ := h
      rw [h2] at hb; cases hb
    · rw [h.2.2.2] at hb; cases hb
      exact ⟨hc.1, rfl⟩
    · rw [h.2.2.2] at hb; cases hb
      exact ⟨hc.1, rfl⟩
  · intro s e s' hP hc hb
    rcases loop_body_cases env fw csh N T s with h | h | h | h
    · rw [h.2] at hb; cases hb; exact hP
    · obtain ⟨_, _, s'', h2, h3, _⟩ := h
      rw [h2] at hb; cases hb
      rw [h3]; exact hP
    · rw [h.2.2.2] at hb; cases hb
    · rw [h.2.2.2] at hb; cases hb
  · intro s hP _
    exact hP

/-- Every call the read loop makes is `kmalloc(MAX_CHUNK, GFP_KERNEL)`. -/
theorem read_loop_trace (env : Env) (fw : firmware) (csh N T : Nat) (fuel : Nat)
    (s : LoopState) (hf : N ≤ s.i + fuel)
    (ht : ∀ e ∈ s.trace, e = Event.kmalloc MAX_CHUNK) :
    ∀ e ∈ (read_loop env fw csh N T fuel s).2.trace, e = Event.kmalloc MAX_CHUNK := by
  refine read_loop_post env fw csh N T (fun s => ∀ e ∈ s.trace, e = Event.kmalloc MAX_CHUNK)
    (fun _ s => ∀ e ∈ s.trace, e = Event.kmalloc MAX_CHUNK) ?_ ?_ ?_ fuel s hf ht
  · intro s s' hP hc hb
    rcases loop_body_cases env fw csh N T s with h | h | h | h
    · rw [h.2] at hb; cases hb
    · obtain ⟨_, _, s'', h2, _⟩ := h
      rw [h2] at hb; cases hb
    · rw [h.2.2.2] at hb; cases hb
      refine ⟨?_, rfl⟩
      intro e he
      simp only [List.mem_append, List.mem_singleton] at he
      rcases he with he | he
      · exact hP e he
      · exact he
    · rw [h.2.2.2] at hb; cases hb
      refine ⟨?_, rfl⟩
      intro e he
      simp only [List.mem_append, List.mem_singleton] at he
      rcases he with he | he
      · exact hP e he
      · exact he
  · intro s e s' hP hc hb
    rcases loop_body_cases env fw csh N T s with h | h | h | h
    · rw [h.2] at hb; cases hb
      intro e he
      simp only [List.mem_append, List.mem_singleton] at he
      rcases he with he | he
      · exact hP e he
      · exact he
    · obtain ⟨_, _, s'', h2, _, _, h5⟩ := h
      rw [h2] at hb; cases hb
      rw [h5]
      intro e he
      simp only [List.mem_append, List.mem_singleton] at he
      rcases he with he | he
      · exact hP e he
      · exact he
    · rw [h.2.2.2] at hb; cases hb
    · rw [h.2.2.2] at hb; cases hb
  · intro s hP _
    exact hP


/-- The first entry's length for the two reachable values of `csh_jump`. -/
theorem first_length_bounds (csh : Nat) (hcsh : csh = 0 ∨ csh = CSH_HDR_SIZE) :
    0 < (MAX_CHUNK + U32 - csh) % U32 ∧ (MAX_CHUNK + U32 - csh) % U32 ≤ MAX_CHUNK := by
  rcases hcsh with h | h <;> subst h <;> decide

/-- Entries `0 .. i-1` of the table exist and satisfy `entry_ok`, however the
loop is left. -/
theorem read_loop_entries_ok (env : Env) (fw : firmware) (csh N T : Nat)
    (hcsh : csh = 0 ∨ csh = CSH_HDR_SIZE) (hT : T < U32) (fuel : Nat)
    (s : LoopState) (hf : N ≤ s.i + fuel)
    (hlen : s.desc_block.length = N) (hhdr : s.chdr = none → s.offset = 0)
    (hok : ∀ j, j < s.i → ∃ d, s.desc_block[j]? = some d ∧ entry_ok d) :
    ∀ j, j < (read_loop env fw csh N T fuel s).2.i →
      ∃ d, (read_loop env fw csh N T fuel s).2.desc_block[j]? = some d ∧ entry_ok d := by
  refine read_loop_post env fw csh N T
    (fun s => s.desc_block.length = N ∧ (s.chdr = none → s.offset = 0) ∧
      ∀ j, j < s.i → ∃ d, s.desc_block[j]? = some d ∧ entry_ok d)
    (fun _ s => ∀ j, j < s.i → ∃ d, s.desc_block[j]? = some d ∧ entry_ok d)
    ?_ ?_ ?_ fuel s hf ⟨hlen, hhdr, hok⟩
  · intro s s' hP hc hb
    obtain ⟨hl, hh, ho⟩ := hP
    rcases loop_body_cases env fw csh N T s with h | h | h | h
    · rw [h.2] at hb; cases hb
    · obtain ⟨_, _, s'', h2, _⟩ := h
      rw [h2] at hb; cases hb
    · obtain ⟨_, hi, hn, h2⟩ := h
      rw [h2] at hb; cases hb
      refine ⟨⟨by simp [hl], by simp, ?_⟩, rfl⟩
      intro j hj
      have hoff := hh hn
      have hT0 : 0 < T := by have := hc.2; omega
      by_cases hji : j = s.i
      · subst hji
        refine ⟨_, List.getElem?_set_self (by omega), ?_⟩
        unfold entry_ok
        rw [hoff, read_len_first T hT hT0]
        exact first_length_bounds csh hcsh
      · obtain ⟨d, hd, hdo⟩ := ho j (by simp at hj; omega)
        exact ⟨d, by simp [List.getElem?_set, Ne.symm hji, hd], hdo⟩
    · obtain ⟨_, hi, hn, h2⟩ := h
      rw [h2] at hb; cases hb
      refine ⟨⟨by simp [hl], ?_, ?_⟩, rfl⟩
      · intro hcon
        obtain ⟨p, hp⟩ := hn
        simp [hp] at hcon
      intro j hj
      by_cases hji : j = s.i
      · subst hji
        refine ⟨_, List.getElem?_set_self (by omega), ?_⟩
        unfold entry_ok
        have h1 : s.offset < T := hc.2
        have h2 := read_len_bounds T s.offset hT h1
        dsimp only
        exact h2
      · obtain ⟨d, hd, hdo⟩ := ho j (by simp at hj; omega)
        exact ⟨d, by simp [List.getElem?_set, Ne.symm hji, hd], hdo⟩
  · intro s e s' hP hc hb
    obtain ⟨hl, hh, ho⟩ := hP
    rcases loop_body_cases env fw csh N T s with h | h | h | h
    · rw [h.2] at hb; cases hb; exact ho
    · obtain ⟨_, _, s'', h2, h3, h4, _⟩ := h
      rw [h2] at hb; cases hb
      rw [h3, h4]; exact ho
    · rw [h.2.2.2] at hb; cases hb
    · rw [h.2.2.2] at hb; cases hb
  · intro s hP _
    exact hP.2.2

/-- An empty image: the loop body never runs. -/
theorem read_in_data_empty (env : Env) (fw : firmware) (csh : Nat) (h0 : fw.size = 0) :
    read_in_data env fw csh = (LoopExit.completed, loop_init 2) := by
  have hN : nblocks_of fw = 2 := by
    unfold nblocks_of; rw [h0]; rfl
  have hT : total_size_of fw = 0 := by
    unfold total_size_of; rw [h0]; rfl
  unfold read_in_data
  rw [hN, hT]
  simp [read_loop, loop_init]

/-- An image of at most one page, when the chunk allocation succeeds: exactly
one chunk is consumed, with `data_len = MAX_CHUNK` whatever the image length. -/
theorem read_in_data_one_chunk (env : Env) (fw : firmware) (csh : Nat)
    (h0 : 0 < fw.size) (h1 : fw.size ≤ MAX_CHUNK) (hk : env.kmalloc 0 ≠ 0) :
    read_in_data env fw csh = (LoopExit.completed,
      { i := 1, offset := MAX_CHUNK, chdr := some (env.kmalloc 0 + csh)
        desc_block :=
          { length := (MAX_CHUNK + U32 - csh) % U32
            data_block := env.__pa (env.kmalloc 0 + csh) } ::
          List.replicate (fw.size / MAX_CHUNK + 1) { length := 0, data_block := 0 }
        chunks := [{ base := env.kmalloc 0, data_len := MAX_CHUNK
                     bytes := (List.range' 0 MAX_CHUNK).map fw.data }]
        trace := [Event.kmalloc MAX_CHUNK] }) := by
  have hT : total_size_of fw = fw.size := by
    unfold total_size_of
    apply Nat.mod_eq_of_lt
    unfold MAX_CHUNK PAGE_SIZE at h1; unfold U32; omega
  have hl : read_len fw.size 0 = MAX_CHUNK :=
    read_len_first fw.size (by rw [← hT]; exact total_size_lt fw) h0
  have hd : fw.size / MAX_CHUNK = 0 ∨ fw.size / MAX_CHUNK = 1 := by
    unfold MAX_CHUNK PAGE_SIZE at *; omega
  have hm : MAX_CHUNK % U32 = MAX_CHUNK := by decide
  have hge : ¬ MAX_CHUNK < fw.size := by omega
  unfold read_in_data
  rw [hT]
  rcases hd with hd | hd
  · have hN : nblocks_of fw = 2 := by unfold nblocks_of; rw [hd]; rfl
    rw [hN, hd]
    simp only [read_loop, loop_init, loop_body, hl]
    simp [hk, h0, hm, hge]
  · have hN : nblocks_of fw = 3 := by unfold nblocks_of; rw [hd]; rfl
    rw [hN, hd]
    simp only [read_loop, loop_init, loop_body, hl]
    simp [hk, h0, hm, hge]

theorem any_update_of_kmalloc (tr : List Event)
    (h : ∀ e ∈ tr, e = Event.kmalloc MAX_CHUNK) : tr.any is_update_capsule = false := by
  rw [List.any_eq_false]
  intro e he
  rw [h e he]
  simp [is_update_capsule]

theorem kfrees_of_kmalloc (tr : List Event)
    (h : ∀ e ∈ tr, e = Event.kmalloc MAX_CHUNK) : kfrees tr = [] := by
  unfold kfrees
  rw [List.filterMap_eq_nil_iff]
  intro e he
  rw [h e he]

theorem read_in_data_trace (env : Env) (fw : firmware) (csh : Nat) :
    ∀ e ∈ (read_in_data env fw csh).2.trace, e = Event.kmalloc MAX_CHUNK := by
  unfold read_in_data
  apply read_loop_trace
  · simp [loop_init]
  · simp [loop_init]

theorem any_update_free_blocks (env : Env) (l : List efi_blk_desc_t) :
    (free_blocks env l).any is_update_capsule = false := by
  rw [List.any_eq_false]
  intro e he
  unfold free_blocks at he
  rw [List.mem_filterMap] at he
  obtain ⟨d, _, hd⟩ := he
  split at hd
  · cases hd; simp [is_update_capsule]
  · cases hd

theorem any_update_done (env : Env) (p : Nat) (l : List efi_blk_desc_t) :
    (done env p l).any is_update_capsule = false := by
  unfold done
  simp only [List.any_append, any_update_free_blocks, Bool.false_or]
  split <;> simp [is_update_capsule]

theorem kfrees_append (a b : List Event) : kfrees (a ++ b) = kfrees a ++ kfrees b := by
  unfold kfrees
  exact List.filterMap_append _ _ _

theorem kfrees_free_blocks (env : Env) (l : List efi_blk_desc_t) :
    kfrees (free_blocks env l) =
      (l.filter fun d => d.data_block ≠ 0).map
        (fun d => env.phys_to_virt (d.data_block % U32)) := by
  induction l with
  | nil => rfl
  | cons d l ih =>
    unfold kfrees free_blocks at *
    by_cases hd : d.data_block = 0
    · simp only [List.filterMap_cons, hd, ne_eq, not_true_eq_false, if_false,
        List.filter_cons, decide_False]
      simpa using ih
    · simp only [List.filterMap_cons, hd, ne_eq, not_false_eq_true, if_true,
        List.filter_cons, decide_True, List.map_cons]
      simpa using ih

/-- The pointers released at label `done`: one for every table entry with a
non-zero `data_block`, then the table. -/
theorem kfrees_done (env : Env) (p : Nat) (l : List efi_blk_desc_t) :
    kfrees (done env p l) =
      (l.filter fun d => d.data_block ≠ 0).map (fun d => env.phys_to_virt (d.data_block % U32))
        ++ (if p ≠ 0 then [p] else []) := by
  unfold done
  rw [kfrees_append, kfrees_append, kfrees_free_blocks]
  have h1 : kfrees [Event.release_firmware] = [] := rfl
  have h2 : kfrees (if p ≠ 0 then [Event.kfree p] else []) = if p ≠ 0 then [p] else [] := by
    split <;> rfl
  rw [h1, h2, List.append_nil]

/-- When the platform call is reached, the run is: the table allocation, the
chunk allocations of the read loop, the platform call, and then either
`release_firmware` alone (persistence requested) or the label `done`; the
value returned is the platform status. -/
theorem submit_firmware_reached (env : Env) (csh : Nat) (fw : firmware)
    (h : (submit_firmware env csh fw).trace.any is_update_capsule = true) :
    submit_firmware env csh fw =
      { ret := platform_status env csh fw
        trace := Event.kzalloc ((nblocks_of fw * sizeof_efi_blk_desc_t) % U32) ::
          ((read_in_data env fw csh).2.trace ++
            Event.update_capsule ((read_in_data env fw csh).2.chdr.getD 0) 1
              (env.__pa (desc_block_ptr env fw)) ::
            (if persist_requested env csh fw then [Event.release_firmware]
             else done env (desc_block_ptr env fw) (read_in_data env fw csh).2.desc_block)) } := by
  have htr := read_in_data_trace env fw csh
  have hst : (if platform_status env csh fw ≠ EFI_SUCCESS then platform_status env csh fw
      else 0) = platform_status env csh fw := by
    unfold EFI_SUCCESS
    split
    · rfl
    · rename_i hh; simp at hh; exact hh.symm
  unfold submit_firmware at h
  unfold submit_firmware persist_requested platform_status desc_block_ptr at *
  generalize hr : read_in_data env fw csh = r at *
  obtain ⟨e, s⟩ := r
  have hno := any_update_of_kmalloc s.trace htr
  by_cases hp : env.kzalloc ((nblocks_of fw * sizeof_efi_blk_desc_t) % U32) = 0
  · simp [hp, is_update_capsule] at h
  · simp only [hp, if_false] at h ⊢
    cases e with
    | alloc_fail => simp [hno, any_update_done, is_update_capsule] at h
    | driver_bug => simp [hno, any_update_done, is_update_capsule] at h
    | completed =>
      simp only at h ⊢
      by_cases hi : s.i > (nblocks_of fw + U32 - 1) % U32
      · simp [hi, hno, any_update_done, is_update_capsule] at h
      · simp only [hi, if_false]
        simp only [hst]
        by_cases hq : s.chdr ≠ none ∧ chdr_flags env csh s.chunks &&& 65536 ≠ 0
        · simp [hq]
        · simp [hq]

/-- Once the image is loaded, the trigger is `request_firmware` followed by the
submission of the image. -/
theorem trigger_loaded (env : Env) (st : State) (fw : firmware)
    (hp : st.path_set = true) (hrf : env.request_firmware st.fpath = (0, some fw)) :
    efi_capsule_trigger_update env st =
      { ret := (submit_firmware env st.csh_jump fw).ret
        trace := Event.request_firmware st.fpath :: (submit_firmware env st.csh_jump fw).trace
        globals := st } := by
  unfold efi_capsule_trigger_update
  simp [hp, hrf]

/-- The platform call is reached when the table was allocated, the loop ran to
its end and the block count check passed. -/
theorem submit_firmware_calls (env : Env) (csh : Nat) (fw : firmware)
    (hz : desc_block_ptr env fw ≠ 0)
    (hc : (read_in_data env fw csh).1 = LoopExit.completed)
    (hi : (read_in_data env fw csh).2.i ≤ (nblocks_of fw + U32 - 1) % U32) :
    (submit_firmware env csh fw).trace.any is_update_capsule = true := by
  unfold submit_firmware
  unfold desc_block_ptr at hz
  generalize hr : read_in_data env fw csh = r at *
  obtain ⟨e, s⟩ := r
  simp only at hc hi
  subst hc
  simp only [hz, if_false, Nat.not_lt.mpr hi, gt_iff_lt]
  split <;> simp [is_update_capsule]

/-- The flags word of an all-zero header is zero. -/
theorem capsule_flags_zero (n m k : Nat) :
    capsule_flags (((List.range' n m).map (zero_image k).data).drop CSH_HDR_SIZE) = 0 := by
  have h : ∀ o : Option Nat, (Option.map (fun _ : Nat => 0) o).getD 0 = 0 := by
    intro o; cases o <;> rfl
  unfold capsule_flags zero_image
  simp only [List.getElem?_drop, List.getElem?_map, h]

/-- The flags word of the header of `persist_image` is `0x10000`. -/
theorem capsule_flags_persist (L : Nat) :
    capsule_flags (((List.range' 0 MAX_CHUNK).map (persist_image L).data).drop CSH_HDR_SIZE)
      = 0x10000 := by
  unfold capsule_flags persist_image
  simp only [List.getElem?_drop, List.getElem?_map]
  rw [List.getElem?_range' 0 1 (by decide), List.getElem?_range' 0 1 (by decide),
    List.getElem?_range' 0 1 (by decide), List.getElem?_range' 0 1 (by decide)]
  decide

theorem calls_platform_trigger (env : Env) (st : State) (fw : firmware)
    (hp : st.path_set = true) (hrf : env.request_firmware st.fpath = (0, some fw)) :
    calls_platform (efi_capsule_trigger_update env st) =
      (submit_firmware env st.csh_jump fw).trace.any is_update_capsule := by
  rw [trigger_loaded env st fw hp hrf]
  simp [calls_platform, is_update_capsule]

/-- The run on an image of at most one page when both allocations succeed. -/
theorem trigger_one_chunk (env : Env) (st : State) (fw : firmware)
    (hp : st.path_set = true) (hrf : env.request_firmware st.fpath = (0, some fw))
    (h0 : 0 < fw.size) (h1 : fw.size ≤ MAX_CHUNK)
    (hz : desc_block_ptr env fw ≠ 0) (hk : env.kmalloc 0 ≠ 0) :
    efi_capsule_trigger_update env st =
      { ret := env.update_capsule (env.kmalloc 0 + st.csh_jump) 1
          (env.__pa (desc_block_ptr env fw))
        trace := Event.request_firmware st.fpath ::
          Event.kzalloc ((nblocks_of fw * sizeof_efi_blk_desc_t) % U32) ::
          Event.kmalloc MAX_CHUNK ::
          Event.update_capsule (env.kmalloc 0 + st.csh_jump) 1
            (env.__pa (desc_block_ptr env fw)) ::
          (if env.hdr_flags (((List.range' 0 MAX_CHUNK).map fw.data).drop st.csh_jump)
                &&& 0x10000 ≠ 0 then
            [Event.release_firmware]
          else
            done env (desc_block_ptr env fw)
              ({ length := (MAX_CHUNK + U32 - st.csh_jump) % U32
                 data_block := env.__pa (env.kmalloc 0 + st.csh_jump) } ::
                List.replicate (fw.size / MAX_CHUNK + 1) { length := 0, data_block := 0 }))
        globals := st } := by
  have hr := read_in_data_one_chunk env fw st.csh_jump h0 h1 hk
  have hc : (submit_firmware env st.csh_jump fw).trace.any is_update_capsule = true := by
    apply submit_firmware_calls _ _ _ hz
    · rw [hr]
    · rw [hr]
      have hd : fw.size / MAX_CHUNK = 0 ∨ fw.size / MAX_CHUNK = 1 := by
        unfold MAX_CHUNK PAGE_SIZE at *; omega
      unfold nblocks_of
      rcases hd with hd | hd <;> rw [hd] <;> show 1 ≤ _ <;> decide
  rw [trigger_loaded env st fw hp hrf, submit_firmware_reached env _ fw hc]
  unfold platform_status persist_requested
  rw [hr]
  simp only [chdr_flags, Option.getD_some, ne_eq, not_false_eq_true, true_and,
    List.singleton_append, List.cons_append, List.nil_append, reduceCtorEq]
  by_cases hq : env.hdr_flags (((List.range' 0 MAX_CHUNK).map fw.data).drop st.csh_jump)
      &&& 0x10000 = 0
  · simp [hq]
  · simp [hq]

/-- The run on an empty image when the table allocation succeeds. -/
theorem trigger_empty (env : Env) (st : State) (fw : firmware)
    (hp : st.path_set = true) (hrf : env.request_firmware st.fpath = (0, some fw))
    (h0 : fw.size = 0) (hz : env.kzalloc 32 ≠ 0) :
    efi_capsule_trigger_update env st =
      { ret := env.update_capsule 0 1 (env.__pa (env.kzalloc 32))
        trace := [Event.request_firmware st.fpath, Event.kzalloc 32,
          Event.update_capsule 0 1 (env.__pa (env.kzalloc 32)),
          Event.kfree (env.kzalloc 32), Event.release_firmware]
        globals := st } := by
  have hr := read_in_data_empty env fw st.csh_jump h0
  have hN : nblocks_of fw = 2 := by unfold nblocks_of; rw [h0]; rfl
  have hptr : desc_block_ptr env fw = env.kzalloc 32 := by
    unfold desc_block_ptr; rw [hN]; rfl
  have hc : (submit_firmware env st.csh_jump fw).trace.any is_update_capsule = true := by
    apply submit_firmware_calls
    · rw [hptr]; exact hz
    · rw [hr]
    · rw [hr, hN]; decide
  rw [trigger_loaded env st fw hp hrf, submit_firmware_reached env _ fw hc]
  unfold platform_status persist_requested
  rw [hr, hptr, hN]
  simp [loop_init, done, free_blocks, hz, sizeof_efi_blk_desc_t, U32]

/-! ## Images of at least one page -/

/-- For an image of at least one page the computed `data_len` is the smaller
of `MAX_CHUNK` and the bytes that remain. -/
theorem read_len_page (T o : Nat) (hT : T < U32) (hC : MAX_CHUNK ≤ T) (ho : o < T) :
    read_len T o = min MAX_CHUNK (T - o) := by
  unfold read_len
  unfold U32 at *
  unfold MAX_CHUNK PAGE_SIZE at *
  have h3 : (T + 2 ^ 32 - 4096) % 2 ^ 32 = T - 4096 := by
    rw [show T + 2 ^ 32 - 4096 = (T - 4096) + 2 ^ 32 by omega, Nat.add_mod_right]
    exact Nat.mod_eq_of_lt (by omega)
  have h2 : (T + 2 ^ 32 - o) % 2 ^ 32 = T - o := by
    rw [show T + 2 ^ 32 - o = (T - o) + 2 ^ 32 by omega, Nat.add_mod_right]
    exact Nat.mod_eq_of_lt (by omega)
  rw [h3, h2]
  split
  · have : (4096 : Nat) % 2 ^ 32 = 4096 := by norm_num
    rw [this]; omega
  · omega

theorem sum_snoc (l : List Nat) (a : Nat) : (l ++ [a]).sum = l.sum + a := by
  induction l with
  | nil => simp
  | cons b l ih => simp only [List.cons_append, List.sum_cons, ih, Nat.add_assoc]

theorem written_snoc (l : List efi_blk_desc_t) (i : Nat) (e : efi_blk_desc_t)
    (hi : i < l.length) : (l.set i e).take (i + 1) = l.take i ++ [e] := by
  rw [List.take_succ, List.getElem?_set_self hi]
  have h : (l.set i e).take i = l.take i := by
    apply List.ext_getElem?
    intro j
    rw [List.getElem?_take, List.getElem?_take]
    split
    · rw [List.getElem?_set_ne (by omega)]
    · rfl
  rw [h]
  rfl

theorem valid_bytes_snoc (s : LoopState) (c : Chunk) (cs : List Chunk)
    (h : cs = s.chunks ++ [c]) (i o : Nat) (ch : Option Nat) (d : List efi_blk_desc_t)
    (tr : List Event) :
    valid_bytes { i := i, offset := o, chdr := ch, desc_block := d, chunks := cs, trace := tr }
      = valid_bytes s ++ c.bytes := by
  subst h
  simp only [valid_bytes, List.map_append, List.flatten_append, List.map_cons, List.map_nil,
    List.flatten_cons, List.flatten_nil, List.append_nil]

/-- The read loop on an image of at least one page, when every allocation
succeeds: the loop runs to its end, consumes the whole image in
`ceil(L / MAX_CHUNK)` chunks whose valid bytes are the image, and the entry
lengths sum to `L - csh_jump`. -/
theorem read_loop_page (env : Env) (fw : firmware) (csh N T : Nat)
    (hT : T < U32) (hC : MAX_CHUNK ≤ T) (hN : N = T / MAX_CHUNK + 2) (hcsh : csh ≤ MAX_CHUNK)
    (hk : ∀ k, env.kmalloc k ≠ 0) :
    (read_loop env fw csh N T N (loop_init N)).1 = LoopExit.completed ∧
    (read_loop env fw csh N T N (loop_init N)).2.offset = T ∧
    valid_bytes (read_loop env fw csh N T N (loop_init N)).2 = (List.range' 0 T).map fw.data ∧
    T ≤ 4096 * (read_loop env fw csh N T N (loop_init N)).2.i ∧
    4096 * (read_loop env fw csh N T N (loop_init N)).2.i < T + 4096 ∧
    ((written (read_loop env fw csh N T N (loop_init N)).2).map efi_blk_desc_t.length).sum
      = T - csh := by
  have hM : MAX_CHUNK = 4096 := rfl
  have hU : U32 = 4294967296 := rfl
  have hT' : T < 4294967296 := hU ▸ hT
  have hC' : 4096 ≤ T := hM ▸ hC
  have hcsh' : csh ≤ 4096 := hM ▸ hcsh
  have hN' : N = T / 4096 + 2 := hM ▸ hN
  refine read_loop_post env fw csh N T
    (fun s => s.desc_block.length = N ∧ s.offset ≤ T ∧
      (s.offset < T → s.offset = 4096 * s.i) ∧
      s.offset ≤ 4096 * s.i ∧ 4096 * s.i < s.offset + 4096 ∧
      valid_bytes s = (List.range' 0 s.offset).map fw.data ∧
      (s.chdr = none ↔ s.i = 0) ∧
      ((written s).map efi_blk_desc_t.length).sum + (if s.i = 0 then 0 else csh) = s.offset)
    (fun e s => e = LoopExit.completed ∧ s.offset = T ∧
      valid_bytes s = (List.range' 0 T).map fw.data ∧
      T ≤ 4096 * s.i ∧ 4096 * s.i < T + 4096 ∧
      ((written s).map efi_blk_desc_t.length).sum = T - csh)
    ?_ ?_ ?_ N (loop_init N) (by simp [loop_init]) ?_
  · -- the body preserves the invariant
    intro s s' hP hc hb
    obtain ⟨hl, hle, hfull, hlo, hhi, hvb, hch, hsum⟩ := hP
    have hoff := hfull hc.2
    have hoT : s.offset < T := hc.2
    have hrl := read_len_page T s.offset hT hC hc.2
    rw [hM] at hrl
    generalize hdl : read_len T s.offset = dl at *
    have hlen : s.offset + dl ≤ T := by omega
    have hmod : (s.offset + dl) % U32 = s.offset + dl :=
      Nat.mod_eq_of_lt (by omega)
    have hpos : 0 < dl := by omega
    have hvb' : valid_bytes s ++ (List.range' s.offset dl).map fw.data
        = (List.range' 0 (s.offset + dl)).map fw.data := by
      have h := List.range'_append_1 0 s.offset dl
      rw [Nat.zero_add] at h
      rw [hvb, ← List.map_append, h, Nat.add_comm]
    rcases loop_body_cases env fw csh N T s with h | h | h | h
    · rw [h.2] at hb; cases hb
    · obtain ⟨_, _, s'', h2, _⟩ := h
      rw [h2] at hb; cases hb
    · obtain ⟨_, hi, hn, h2⟩ := h
      rw [h2, hdl] at hb; cases hb
      have hi0 : s.i = 0 := hch.mp hn
      have ho0 : s.offset = 0 := by omega
      have hr0 : dl = 4096 := by omega
      have hlen0 : (dl + U32 - csh) % U32 = dl - csh := by
        rw [show dl + U32 - csh = (dl - csh) + U32 by omega, Nat.add_mod_right]
        exact Nat.mod_eq_of_lt (by omega)
      refine ⟨⟨?_, ?_, ?_, ?_, ?_, ?_, ?_, ?_⟩, rfl⟩
      · simp only [List.length_set]; exact hl
      · simp only [hmod]; exact hlen
      · intro _; simp only [hmod]; omega
      · simp only [hmod]; omega
      · simp only [hmod]; omega
      · rw [valid_bytes_snoc s _ _ rfl, hmod]; exact hvb'
      · simp
      · simp only [written, hmod]
        rw [written_snoc _ _ _ (by omega), hi0, hlen0]
        simp only [List.take_zero, List.nil_append, List.map_cons, List.map_nil, List.sum_cons,
          List.sum_nil, Nat.add_zero]
        rw [if_neg (by omega)]
        omega
    · obtain ⟨_, hi, hn, h2⟩ := h
      rw [h2, hdl] at hb; cases hb
      have hi0 : s.i ≠ 0 := by
        intro h0
        obtain ⟨p, hp⟩ := hn
        have := hch.mpr h0
        rw [hp] at this; cases this
      rw [if_neg hi0] at hsum
      refine ⟨⟨?_, ?_, ?_, ?_, ?_, ?_, ?_, ?_⟩, rfl⟩
      · simp only [List.length_set]; exact hl
      · simp only [hmod]; exact hlen
      · intro hlt; simp only [hmod] at hlt ⊢; omega
      · simp only [hmod]; omega
      · simp only [hmod]; omega
      · rw [valid_bytes_snoc s _ _ rfl, hmod]; exact hvb'
      · obtain ⟨p, hp⟩ := hn
        simp [hp]
      · have hne : ¬ (s.i + 1 = 0) := by omega
        simp only [written, hmod] at hsum ⊢
        rw [written_snoc _ _ _ (by omega), List.map_append, List.map_cons, List.map_nil,
          sum_snoc, if_neg hne]
        dsimp only
        omega
  · -- the loop is not left early
    intro s e s' hP hc hb
    rcases loop_body_cases env fw csh N T s with h | h | h | h
    · exact absurd h.1 (hk _)
    · have := hc.1; omega
    · rw [h.2.2.2] at hb; cases hb
    · rw [h.2.2.2] at hb; cases hb
  · -- at the end of the loop
    intro s hP hc
    obtain ⟨hl, hle, hfull, hlo, hhi, hvb, hch, hsum⟩ := hP
    have hiN : s.i < N := by omega
    have hoT : s.offset = T := by
      by_contra hne
      exact hc ⟨hiN, by omega⟩
    have hi0 : s.i ≠ 0 := by
      intro h0; rw [h0] at hlo; omega
    rw [if_neg hi0] at hsum
    refine ⟨rfl, hoT, by rw [hvb, hoT], by omega, by omega, by omega⟩
  · -- on entry
    simp [loop_init, valid_bytes, written]

/-- The claims C1 to C3 hold for every image of at least one page when the
allocations succeed: the loop runs to its end, the valid bytes of the chunks
are the bytes of the image, `ceil(L / MAX_CHUNK)` chunks are consumed and the
entry lengths sum to `L - csh_jump`. -/
theorem read_in_data_page (env : Env) (fw : firmware) (csh : Nat)
    (hL : fw.size < U32) (hC : MAX_CHUNK ≤ fw.size) (hcsh : csh ≤ MAX_CHUNK)
    (hk : ∀ k, env.kmalloc k ≠ 0) :
    (read_in_data env fw csh).1 = LoopExit.completed ∧
    (read_in_data env fw csh).2.offset = fw.size ∧
    valid_bytes (read_in_data env fw csh).2 = image_bytes fw ∧
    fw.size ≤ 4096 * (read_in_data env fw csh).2.i ∧
    4096 * (read_in_data env fw csh).2.i < fw.size + 4096 ∧
    ((written (read_in_data env fw csh).2).map efi_blk_desc_t.length).sum = fw.size - csh := by
  have hT : total_size_of fw = fw.size := Nat.mod_eq_of_lt hL
  have hN : nblocks_of fw = fw.size / MAX_CHUNK + 2 := by
    unfold nblocks_of
    apply Nat.mod_eq_of_lt
    unfold U32 at *
    unfold MAX_CHUNK PAGE_SIZE
    omega
  have h := read_loop_page env fw csh (nblocks_of fw) fw.size hL hC hN hcsh hk
  unfold read_in_data image_bytes
  rw [hT]
  exact h

/-! ## The table mirrors the chunks -/

/-- However the loop is left, the table has `nblocks` entries, every entry
`j < i` is the entry that the specification gives for chunk `j`, the header
pointer is the base of chunk 0 plus the skip, and the entries from `i` on are
still zero. -/
theorem read_loop_table (env : Env) (fw : firmware) (csh N T : Nat)
    (hcsh : csh = 0 ∨ csh = CSH_HDR_SIZE) (hT : T < U32) :
    (read_loop env fw csh N T N (loop_init N)).2.desc_block.length = N ∧
    (read_loop env fw csh N T N (loop_init N)).2.chunks.length =
      (read_loop env fw csh N T N (loop_init N)).2.i ∧
    (read_loop env fw csh N T N (loop_init N)).1 ≠ LoopExit.driver_bug ∧
    (read_loop env fw csh N T N (loop_init N)).2.chdr =
      (read_loop env fw csh N T N (loop_init N)).2.chunks[0]?.map (fun c => c.base + csh) ∧
    (∀ j c, (read_loop env fw csh N T N (loop_init N)).2.chunks[j]? = some c →
      (read_loop env fw csh N T N (loop_init N)).2.desc_block[j]? =
        some (spec_entry env csh j c)) ∧
    (∀ j, (read_loop env fw csh N T N (loop_init N)).2.i ≤ j → j < N →
      (read_loop env fw csh N T N (loop_init N)).2.desc_block[j]? =
        some { length := 0, data_block := 0 }) := by
  have hfirst : (MAX_CHUNK + U32 - csh) % U32 = MAX_CHUNK - csh := by
    rcases hcsh with h | h <;> subst h <;> decide
  refine read_loop_post env fw csh N T
    (fun s => s.desc_block.length = N ∧ s.chunks.length = s.i ∧
      s.chdr = s.chunks[0]?.map (fun c => c.base + csh) ∧
      (s.i = 0 → s.offset = 0) ∧
      (∀ j c, s.chunks[j]? = some c → s.desc_block[j]? = some (spec_entry env csh j c)) ∧
      (∀ j, s.i ≤ j → j < N → s.desc_block[j]? = some { length := 0, data_block := 0 }))
    (fun e s => s.desc_block.length = N ∧ s.chunks.length = s.i ∧
      e ≠ LoopExit.driver_bug ∧
      s.chdr = s.chunks[0]?.map (fun c => c.base + csh) ∧
      (∀ j c, s.chunks[j]? = some c → s.desc_block[j]? = some (spec_entry env csh j c)) ∧
      (∀ j, s.i ≤ j → j < N → s.desc_block[j]? = some { length := 0, data_block := 0 }))
    ?_ ?_ ?_ N (loop_init N) (by simp [loop_init]) ?_
  · intro s s' hP hc hb
    obtain ⟨hl, hcl, hch, hoff, hent, hzero⟩ := hP
    have hT0 : 0 < T := by have := hc.2; omega
    rcases loop_body_cases env fw csh N T s with h | h | h | h
    · rw [h.2] at hb; cases hb
    · obtain ⟨_, _, s'', h2, _⟩ := h
      rw [h2] at hb; cases hb
    · obtain ⟨_, hi, hn, h2⟩ := h
      rw [h2] at hb; cases hb
      have hnil : s.chunks = [] := by
        rw [hn] at hch
        cases hcs : s.chunks with
        | nil => rfl
        | cons c cs => rw [hcs] at hch; simp at hch
      have hi0 : s.i = 0 := by rw [← hcl, hnil]; rfl
      have ho0 : s.offset = 0 := hoff hi0
      refine ⟨⟨?_, ?_, ?_, ?_, ?_, ?_⟩, rfl⟩
      · simp only [List.length_set]; exact hl
      · simp only [List.length_append, List.length_singleton, hcl]
      · simp only [hnil, List.nil_append, List.getElem?_cons_zero, Option.map_some']
      · intro h; simp at h
      · intro j c hj
        simp only [hnil, List.nil_append] at hj
        cases j with
        | zero =>
          simp only [List.getElem?_cons_zero, Option.some.injEq] at hj
          subst hj
          rw [hi0, List.getElem?_set_self (by omega)]
          unfold spec_entry
          rw [if_pos rfl]
          dsimp only
          rw [ho0, read_len_first T hT hT0, hfirst]
        | succ j => simp at hj
      · intro j hj hjN
        dsimp only at hj
        rw [List.getElem?_set_ne (by omega)]
        exact hzero j (by omega) hjN
    · obtain ⟨_, hi, hn, h2⟩ := h
      rw [h2] at hb; cases hb
      obtain ⟨p, hp⟩ := hn
      have hne : s.chunks ≠ [] := by
        intro h0; rw [hp, h0] at hch; simp at hch
      have hi0 : s.i ≠ 0 := by
        intro h0; rw [h0] at hcl
        exact hne (List.length_eq_zero.mp hcl)
      have h0lt : 0 < s.chunks.length := by omega
      refine ⟨⟨?_, ?_, ?_, ?_, ?_, ?_⟩, rfl⟩
      · simp only [List.length_set]; exact hl
      · simp only [List.length_append, List.length_singleton, hcl]
      · dsimp only
        rw [List.getElem?_append_left h0lt]; exact hch
      · intro h; simp at h
      · intro j c hj
        dsimp only at hj ⊢
        by_cases hjl : j < s.chunks.length
        · rw [List.getElem?_append_left hjl] at hj
          rw [List.getElem?_set_ne (by omega)]
          exact hent j c hj
        · have hjl' : s.chunks.length ≤ j := by omega
          rw [List.getElem?_append_right hjl'] at hj
          have hj0 : j - s.chunks.length = 0 := by
            by_contra hne0
            obtain ⟨m, hm⟩ := Nat.exists_eq_succ_of_ne_zero hne0
            rw [hm] at hj; simp at hj
          rw [hj0] at hj
          simp only [List.getElem?_cons_zero, Option.some.injEq] at hj
          subst hj
          have hji : j = s.i := by omega
          subst hji
          rw [List.getElem?_set_self (by omega)]
          unfold spec_entry
          rw [if_neg hi0]
      · intro j hj hjN
        dsimp only at hj
        rw [List.getElem?_set_ne (by omega)]
        exact hzero j (by omega) hjN
  · intro s e s' hP hc hb
    obtain ⟨hl, hcl, hch, hoff, hent, hzero⟩ := hP
    rcases loop_body_cases env fw csh N T s with h | h | h | h
    · rw [h.2] at hb; cases hb
      exact ⟨hl, hcl, by simp, hch, hent, hzero⟩
    · have := hc.1; omega
    · rw [h.2.2.2] at hb; cases hb
    · rw [h.2.2.2] at hb; cases hb
  · intro s hP _
    obtain ⟨hl, hcl, hch, hoff, hent, hzero⟩ := hP
    exact ⟨hl, hcl, by simp, hch, hent, hzero⟩
  · refine ⟨by simp [loop_init], rfl, rfl, fun _ => rfl, ?_, ?_⟩
    · intro j c hj; simp [loop_init] at hj
    · intro j _ hjN
      simp only [loop_init]
      exact List.getElem?_replicate_of_lt hjN

/-- The statement of `read_loop_table` for `read_in_data`. -/
theorem read_in_data_table (env : Env) (fw : firmware) (csh : Nat)
    (hcsh : csh = 0 ∨ csh = CSH_HDR_SIZE) :
    (read_in_data env fw csh).2.desc_block.length = nblocks_of fw ∧
    (read_in_data env fw csh).2.chunks.length = (read_in_data env fw csh).2.i ∧
    (read_in_data env fw csh).1 ≠ LoopExit.driver_bug ∧
    (read_in_data env fw csh).2.chdr =
      (read_in_data env fw csh).2.chunks[0]?.map (fun c => c.base + csh) ∧
    (∀ j c, (read_in_data env fw csh).2.chunks[j]? = some c →
      (read_in_data env fw csh).2.desc_block[j]? = some (spec_entry env csh j c)) ∧
    (∀ j, (read_in_data env fw csh).2.i ≤ j → j < nblocks_of fw →
      (read_in_data env fw csh).2.desc_block[j]? = some { length := 0, data_block := 0 }) :=
  read_loop_table env fw csh (nblocks_of fw) (total_size_of fw) hcsh (total_size_lt fw)

/-- A chunk, once consumed, stays the first chunk. -/
theorem read_loop_keeps_first (env : Env) (fw : firmware) (csh N T : Nat) (c0 : Chunk)
    (fuel : Nat) (s : LoopState) (hf : N ≤ s.i + fuel) (h : s.chunks[0]? = some c0) :
    (read_loop env fw csh N T fuel s).2.chunks[0]? = some c0 := by
  have happ : ∀ (l : List Chunk) (c : Chunk), l[0]? = some c0 → (l ++ [c])[0]? = some c0 := by
    intro l c hl
    cases l with
    | nil => simp at hl
    | cons a l => simpa using hl
  refine read_loop_post env fw csh N T (fun s => s.chunks[0]? = some c0)
    (fun _ s => s.chunks[0]? = some c0) ?_ ?_ ?_ fuel s hf h
  · intro s s' hP hc hb
    rcases loop_body_cases env fw csh N T s with h | h | h | h
    · rw [h.2] at hb; cases hb
    · obtain ⟨_, _, s'', h2, _⟩ := h
      rw [h2] at hb; cases hb
    · rw [h.2.2.2] at hb; cases hb
      exact ⟨happ _ _ hP, rfl⟩
    · rw [h.2.2.2] at hb; cases hb
      exact ⟨happ _ _ hP, rfl⟩
  · intro s e s' hP hc hb
    rcases loop_body_cases env fw csh N T s with h | h | h | h
    · rw [h.2] at hb; cases hb; exact hP
    · have := hc.1; omega
    · rw [h.2.2.2] at hb; cases hb
    · rw [h.2.2.2] at hb; cases hb
  · intro s hP _
    exact hP

/-- For a non-empty image whose first chunk is allocated, chunk 0 is the
pointer returned by the first `kmalloc` with `data_len = MAX_CHUNK`. -/
theorem read_in_data_first_chunk (env : Env) (fw : firmware) (csh : Nat)
    (h0 : 0 < fw.size) (hL : fw.size < U32) (hk : env.kmalloc 0 ≠ 0) :
    (read_in_data env fw csh).2.chunks[0]? =
      some { base := env.kmalloc 0, data_len := MAX_CHUNK
             bytes := (List.range' 0 MAX_CHUNK).map fw.data } := by
  have hT : total_size_of fw = fw.size := Nat.mod_eq_of_lt hL
  have hN : ∃ M, nblocks_of fw = M + 1 := by
    refine ⟨fw.size / MAX_CHUNK + 1, ?_⟩
    unfold nblocks_of
    apply Nat.mod_eq_of_lt
    unfold U32 at *
    unfold MAX_CHUNK PAGE_SIZE
    omega
  obtain ⟨M, hM⟩ := hN
  have hl : read_len fw.size 0 = MAX_CHUNK := read_len_first fw.size hL h0
  unfold read_in_data
  rw [hT, hM]
  simp only [read_loop]
  have hc : (loop_init (M + 1)).i < M + 1 ∧ (loop_init (M + 1)).offset < fw.size :=
    ⟨by simp [loop_init], h0⟩
  rw [if_pos hc]
  rcases loop_body_cases env fw csh (M + 1) fw.size (loop_init (M + 1)) with h | h | h | h
  · exact absurd h.1 hk
  · have := h.2.1; simp [loop_init] at this
  · rw [h.2.2.2]
    dsimp only
    apply read_loop_keeps_first
    · dsimp only; omega
    · simp only [loop_init, List.nil_append, List.getElem?_cons_zero, hl]
  · obtain ⟨_, _, ⟨p, hp⟩, _⟩ := h
    simp [loop_init] at hp

/-! ## Claims C1 to C4: the chunk lengths and the release of chunk 0 -/

/-- C1, the code at the failing input: for an image of 3000 bytes the read loop
consumes one chunk with `data_len = 4096`, so the valid bytes of the chunks are
4096 bytes (the image and the 1096 bytes that follow it in memory) and not
the 3000 bytes of the image. -/
theorem C1_valid_bytes_at_3000 :
    (read_in_data (sample_env (zero_image 3000) 0) (zero_image 3000) CSH_HDR_SIZE).2.chunks.map
        Chunk.data_len = [4096] ∧
    (valid_bytes
      (read_in_data (sample_env (zero_image 3000) 0) (zero_image 3000) CSH_HDR_SIZE).2).length
        = 4096 ∧
    (image_bytes (zero_image 3000)).length = 3000 ∧
    valid_bytes (read_in_data (sample_env (zero_image 3000) 0) (zero_image 3000) CSH_HDR_SIZE).2
      ≠ image_bytes (zero_image 3000) := by
  have hr := read_in_data_one_chunk (sample_env (zero_image 3000) 0) (zero_image 3000)
    CSH_HDR_SIZE (by decide) (by decide) (by decide)
  have h1 : (valid_bytes (read_in_data (sample_env (zero_image 3000) 0) (zero_image 3000)
      CSH_HDR_SIZE).2).length = 4096 := by
    rw [hr]
    simp only [valid_bytes, List.map_cons, List.map_nil, List.flatten_cons, List.flatten_nil,
      List.append_nil, List.length_map, List.length_range']
    rfl
  have h2 : (image_bytes (zero_image 3000)).length = 3000 := by
    simp only [image_bytes, zero_image, List.length_map, List.length_range']
  refine ⟨?_, h1, h2, ?_⟩
  · rw [hr]; rfl
  · intro h
    rw [h, h2] at h1
    exact absurd h1 (by decide)

/-- C2, the code at the failing input: for `L = 3000`, `C = 4096` and
`skip = 1024` exactly one chunk is consumed, its `data_len` is 4096 (not
`L - 0 = 3000`) and the first descriptor entry's length is
`4096 - 1024 = 3072` (not `3000 - 1024 = 1976`). -/
theorem C2_first_entry_at_3000 :
    (read_in_data (sample_env (zero_image 3000) 0) (zero_image 3000) CSH_HDR_SIZE).2.i = 1 ∧
    (read_in_data (sample_env (zero_image 3000) 0) (zero_image 3000) CSH_HDR_SIZE).2.chunks.map
        Chunk.data_len = [4096] ∧
    (written (read_in_data (sample_env (zero_image 3000) 0) (zero_image 3000)
        CSH_HDR_SIZE).2).map efi_blk_desc_t.length = [3072] ∧
    3000 - CSH_HDR_SIZE = 1976 := by
  rw [read_in_data_one_chunk (sample_env (zero_image 3000) 0) (zero_image 3000)
    CSH_HDR_SIZE (by decide) (by decide) (by decide)]
  refine ⟨rfl, rfl, ?_, rfl⟩
  simp [written, MAX_CHUNK, PAGE_SIZE, U32, CSH_HDR_SIZE]

/-- C3, the code at the failing input: for an image of 3000 bytes one entry is
written and the sum of the entry lengths is `4096 - skip`, that is 3072 with
`skip = 1024` (not `3000 - 1024 = 1976`) and 4096 with `skip = 0` (not 3000). -/
theorem C3_length_sum_at_3000 :
    ((written (read_in_data (sample_env (zero_image 3000) 0) (zero_image 3000)
        CSH_HDR_SIZE).2).map efi_blk_desc_t.length).sum = 3072 ∧
    ((written (read_in_data (sample_env (zero_image 3000) 0) (zero_image 3000)
        0).2).map efi_blk_desc_t.length).sum = 4096 ∧
    (zero_image 3000).size - CSH_HDR_SIZE = 1976 ∧ (zero_image 3000).size - 0 = 3000 := by
  rw [read_in_data_one_chunk (sample_env (zero_image 3000) 0) (zero_image 3000)
    CSH_HDR_SIZE (by decide) (by decide) (by decide),
    read_in_data_one_chunk (sample_env (zero_image 3000) 0) (zero_image 3000)
    0 (by decide) (by decide) (by decide)]
  refine ⟨?_, ?_, rfl, rfl⟩
  · simp [written, MAX_CHUNK, PAGE_SIZE, U32, CSH_HDR_SIZE]
  · simp [written, MAX_CHUNK, PAGE_SIZE, U32]

/-- C4, the code at the failing input: for an image of one page (4096 zero
bytes, flags word 0) with header skip enabled and a successful platform call,
the only chunk was allocated at `0xC1000000`, but the pointer passed to
`kfree` for it is the entry address `0xC1000400`; the chunk base is never
released.  The descriptor table `0xC2000000` is released last. -/
theorem C4_kfree_at_one_page :
    (read_in_data (sample_env (zero_image 4096) 0) (zero_image 4096) CSH_HDR_SIZE).2.chunks.map
        Chunk.base = [0xC1000000] ∧
    calls_platform (efi_capsule_trigger_update (sample_env (zero_image 4096) 0) st_skip)
      = true ∧
    kfrees (efi_capsule_trigger_update (sample_env (zero_image 4096) 0) st_skip).trace
      = [0xC1000400, 0xC2000000] := by
  have ht := trigger_one_chunk (sample_env (zero_image 4096) 0) st_skip (zero_image 4096)
    rfl rfl (by decide) (by decide) (by decide) (by decide)
  have hf : (sample_env (zero_image 4096) 0).hdr_flags
      (((List.range' 0 MAX_CHUNK).map (zero_image 4096).data).drop st_skip.csh_jump) = 0 := by
    simp only [sample_env, st_skip]
    exact capsule_flags_zero 0 MAX_CHUNK 4096
  rw [hf] at ht
  simp only [show st_skip.csh_jump = CSH_HDR_SIZE from rfl] at ht
  refine ⟨?_, ?_, ?_⟩
  · rw [read_in_data_one_chunk (sample_env (zero_image 4096) 0) (zero_image 4096)
      CSH_HDR_SIZE (by decide) (by decide) (by decide)]
    simp only [List.map_cons, List.map_nil, sample_env, Nat.mul_zero, Nat.add_zero]
  · rw [ht]
    simp [calls_platform, is_update_capsule]
  · rw [ht]
    simp [kfrees, done, free_blocks, sample_env, desc_block_ptr, CSH_HDR_SIZE, U32,
      zero_image, MAX_CHUNK, PAGE_SIZE]

theorem read_loop_with_status (env : Env) (status : Int) (fw : firmware) (csh N T : Nat) :
    ∀ fuel s, read_loop (with_status env status) fw csh N T fuel s =
      read_loop env fw csh N T fuel s := by
  intro fuel
  induction fuel with
  | zero => intro s; rfl
  | succ n ih =>
    intro s
    simp only [read_loop]
    have hb : loop_body (with_status env status) fw csh N T s = loop_body env fw csh N T s :=
      rfl
    rw [hb]
    split
    · split
      · exact ih _
      · rfl
    · rfl

theorem read_in_data_with_status (env : Env) (status : Int) (fw : firmware) (csh : Nat) :
    read_in_data (with_status env status) fw csh = read_in_data env fw csh :=
  read_loop_with_status env status fw csh _ _ _ _

/-- The calls made by a submission do not depend on the status that the
platform returns. -/
theorem submit_firmware_trace_with_status (env : Env) (status : Int) (csh : Nat)
    (fw : firmware) :
    (submit_firmware (with_status env status) csh fw).trace =
      (submit_firmware env csh fw).trace := by
  unfold submit_firmware
  rw [read_in_data_with_status]
  have h1 : (with_status env status).kzalloc = env.kzalloc := rfl
  have h2 : (with_status env status).__pa = env.__pa := rfl
  have h3 : ∀ p l, done (with_status env status) p l = done env p l := fun _ _ => rfl
  have h4 : ∀ c l, chdr_flags (with_status env status) c l = chdr_flags env c l :=
    fun _ _ => rfl
  simp only [h1, h2, h3, h4]
  generalize read_in_data env fw csh = r
  obtain ⟨e, s⟩ := r
  split
  · rfl
  · cases e with
    | alloc_fail => rfl
    | driver_bug => rfl
    | completed =>
      simp only
      split
      · rfl
      · split <;> rfl

/-- The table was allocated whenever the platform call is reached. -/
theorem desc_block_ptr_of_calls (env : Env) (csh : Nat) (fw : firmware)
    (h : (submit_firmware env csh fw).trace.any is_update_capsule = true) : desc_block_ptr env fw ≠ 0 := by
  intro hz
  unfold desc_block_ptr at hz
  unfold submit_firmware at h
  simp [hz, is_update_capsule] at h

/-- The run on `persist_image 4096` with header skip enabled: nothing is passed
to `kfree`, whatever the platform status. -/
theorem sample_persist_run (status : Int) :
    efi_capsule_trigger_update (sample_env (persist_image 4096) status) st_skip =
      { ret := status
        trace := [Event.request_firmware st_skip.fpath, Event.kzalloc 48, Event.kmalloc 4096,
          Event.update_capsule 0xC1000400 1 0x02000000, Event.release_firmware]
        globals := st_skip } := by
  have ht := trigger_one_chunk (sample_env (persist_image 4096) status) st_skip
    (persist_image 4096) rfl rfl (by decide) (by decide)
    (by simp [desc_block_ptr, sample_env]) (by simp [sample_env])
  have hf : (sample_env (persist_image 4096) status).hdr_flags
      (((List.range' 0 MAX_CHUNK).map (persist_image 4096).data).drop st_skip.csh_jump)
        = 0x10000 := by
    simp only [sample_env, st_skip]
    exact capsule_flags_persist 4096
  rw [hf] at ht
  simp only [show st_skip.csh_jump = CSH_HDR_SIZE from rfl] at ht
  rw [ht]
  have h1 : desc_block_ptr (sample_env (persist_image 4096) status) (persist_image 4096)
      = 0xC2000000 := rfl
  have h2 : nblocks_of (persist_image 4096) = 3 := by decide
  rw [h1, h2]
  simp only [sample_env, CSH_HDR_SIZE, MAX_CHUNK, PAGE_SIZE, sizeof_efi_blk_desc_t, U32]
  simp

theorem sample_persist_requested (status : Int) :
    persist_requested (sample_env (persist_image 4096) status) st_skip.csh_jump
      (persist_image 4096) = true := by
  unfold persist_requested
  rw [read_in_data_one_chunk _ _ _ (by decide) (by decide) (by simp [sample_env])]
  have hf : (sample_env (persist_image 4096) status).hdr_flags
      (((List.range' 0 MAX_CHUNK).map (persist_image 4096).data).drop st_skip.csh_jump)
        = 0x10000 := by
    simp only [sample_env, st_skip]
    exact capsule_flags_persist 4096
  simp only [chdr_flags, hf]
  simp

theorem sample_persist_calls (status : Int) :
    calls_platform (efi_capsule_trigger_update (sample_env (persist_image 4096) status) st_skip)
      = true := by
  rw [sample_persist_run]
  simp [calls_platform, is_update_capsule]

/-! ## Claims C5 to C8: teardown and validation -/

/-- C5, counterexample: on `persist_image 4096` (flags word `0x10000`) with a
successful platform call the run returns 0 and frees no chunk, but the
descriptor table `0xC2000000` is not released either. -/
theorem C5_table_not_released :
    calls_platform (efi_capsule_trigger_update (sample_env (persist_image 4096) 0) st_skip)
      = true ∧
    platform_status (sample_env (persist_image 4096) 0) st_skip.csh_jump (persist_image 4096)
      = EFI_SUCCESS ∧
    persist_requested (sample_env (persist_image 4096) 0) st_skip.csh_jump (persist_image 4096)
      = true ∧
    desc_block_ptr (sample_env (persist_image 4096) 0) (persist_image 4096) = 0xC2000000 ∧
    (efi_capsule_trigger_update (sample_env (persist_image 4096) 0) st_skip).ret = 0 ∧
    ¬ (0xC2000000 ∈
      kfrees (efi_capsule_trigger_update (sample_env (persist_image 4096) 0) st_skip).trace) := by
  refine ⟨sample_persist_calls 0, rfl, sample_persist_requested 0, rfl, ?_, ?_⟩
  · rw [sample_persist_run]
  · rw [sample_persist_run]
    simp [kfrees]

/-- C5, amended: when the platform call succeeds and the image header's flags
have bit `0x10000` set, `efi_capsule_trigger_update` passes nothing to `kfree`
(neither a chunk buffer nor the descriptor table), ends with
`release_firmware` and returns 0. -/
theorem C5_persistent_success (env : Env) (st : State) (fw : firmware)
    (hp : st.path_set = true) (hrf : env.request_firmware st.fpath = (0, some fw))
    (hcall : calls_platform (efi_capsule_trigger_update env st) = true)
    (hok : platform_status env st.csh_jump fw = EFI_SUCCESS)
    (hflag : persist_requested env st.csh_jump fw = true) :
    kfrees (efi_capsule_trigger_update env st).trace = [] ∧
    (efi_capsule_trigger_update env st).trace.getLast? = some Event.release_firmware ∧
    (efi_capsule_trigger_update env st).ret = 0 := by
  rw [calls_platform_trigger env st fw hp hrf] at hcall
  rw [trigger_loaded env st fw hp hrf, submit_firmware_reached env _ fw hcall, hflag, hok]
  have hk := kfrees_of_kmalloc _ (read_in_data_trace env fw st.csh_jump)
  refine ⟨?_, ?_, rfl⟩
  · simp only [if_true]
    rw [show ∀ (a b : Event) (l : List Event), a :: b :: l = [a, b] ++ l from fun _ _ _ => rfl,
      kfrees_append, kfrees_append, hk]
    rfl
  · simp only [if_true]
    rw [show ∀ (a a' b c : Event) (l : List Event),
      a :: a' :: (l ++ [b, c]) = (a :: a' :: (l ++ [b])) ++ [c] from fun _ _ _ _ _ => by simp]
    exact List.getLast?_concat _

/-- Witness for `C5_persistent_success`: `persist_image 4096` with a successful
platform call. -/
theorem C5_persistent_success_witness :
    platform_status (sample_env (persist_image 4096) 0) st_skip.csh_jump (persist_image 4096)
      = EFI_SUCCESS ∧
    persist_requested (sample_env (persist_image 4096) 0) st_skip.csh_jump (persist_image 4096)
      = true ∧
    kfrees (efi_capsule_trigger_update (sample_env (persist_image 4096) 0) st_skip).trace = [] ∧
    (efi_capsule_trigger_update (sample_env (persist_image 4096) 0) st_skip).trace.getLast?
      = some Event.release_firmware ∧
    (efi_capsule_trigger_update (sample_env (persist_image 4096) 0) st_skip).ret = 0 :=
  ⟨rfl, sample_persist_requested 0,
    C5_persistent_success (sample_env (persist_image 4096) 0) st_skip (persist_image 4096)
      rfl rfl (sample_persist_calls 0) rfl (sample_persist_requested 0)⟩

/-- The teardown after a failed submission: the status is returned and the
calls made are exactly those of a successful submission of the same image.
When persistence is not requested every non-zero entry address of the table
is passed to `kfree` through `phys_to_virt`, and then the table; when it is
requested nothing is passed to `kfree`. -/
theorem failed_submission_teardown (env : Env) (st : State) (fw : firmware)
    (hp : st.path_set = true) (hrf : env.request_firmware st.fpath = (0, some fw))
    (hcall : calls_platform (efi_capsule_trigger_update env st) = true)
    (hfail : platform_status env st.csh_jump fw ≠ EFI_SUCCESS) :
    (efi_capsule_trigger_update env st).ret = platform_status env st.csh_jump fw ∧
    (efi_capsule_trigger_update env st).ret ≠ 0 ∧
    (efi_capsule_trigger_update env st).trace =
      (efi_capsule_trigger_update (with_status env EFI_SUCCESS) st).trace ∧
    kfrees (efi_capsule_trigger_update env st).trace =
      (if persist_requested env st.csh_jump fw then []
       else
        ((read_in_data env fw st.csh_jump).2.desc_block.filter fun d => d.data_block ≠ 0).map
            (fun d => env.phys_to_virt (d.data_block % U32))
          ++ [desc_block_ptr env fw]) := by
  have hrf' : (with_status env EFI_SUCCESS).request_firmware st.fpath = (0, some fw) := hrf
  rw [calls_platform_trigger env st fw hp hrf] at hcall
  have hz := desc_block_ptr_of_calls env _ fw hcall
  have hk := kfrees_of_kmalloc _ (read_in_data_trace env fw st.csh_jump)
  have hsplit : ∀ (a b c : Event) (l l' : List Event),
      a :: b :: (l ++ c :: l') = [a, b] ++ (l ++ ([c] ++ l')) := fun _ _ _ _ _ => rfl
  have hnil : ∀ (a b c : Event) (l l' : List Event), kfrees [a, b] = [] → kfrees l = [] →
      kfrees [c] = [] → kfrees (a :: b :: (l ++ c :: l')) = kfrees l' := by
    intro a b c l l' h1 h2 h3
    rw [hsplit, kfrees_append, kfrees_append, kfrees_append, h1, h2, h3]
    rfl
  refine ⟨?_, ?_, ?_, ?_⟩
  · rw [trigger_loaded env st fw hp hrf, submit_firmware_reached env _ fw hcall]
  · rw [trigger_loaded env st fw hp hrf, submit_firmware_reached env _ fw hcall]
    exact hfail
  · rw [trigger_loaded env st fw hp hrf, trigger_loaded _ st fw hp hrf',
      submit_firmware_trace_with_status]
  · rw [trigger_loaded env st fw hp hrf, submit_firmware_reached env _ fw hcall]
    simp only
    rw [hnil (Event.request_firmware st.fpath)
      (Event.kzalloc (nblocks_of fw * sizeof_efi_blk_desc_t % U32))
      (Event.update_capsule ((read_in_data env fw st.csh_jump).2.chdr.getD 0) 1
        (env.__pa (desc_block_ptr env fw))) _ _ rfl hk rfl]
    by_cases hq : persist_requested env st.csh_jump fw = true
    · simp only [hq, if_true]
      rfl
    · simp only [hq, if_false, Bool.false_eq_true]
      rw [kfrees_done, if_pos hz]

/-- C6, the code at the failing input: on `persist_image 4096` (flags word
`0x10000`) the platform call fails with status 5 and the run returns 5, but
the test of the persistence bit at line 137 comes after both outcomes of the
call: the teardown is skipped and nothing is passed to `kfree`.  Neither the
chunk `0xC1000000` nor the descriptor table `0xC2000000` is released. -/
theorem C6_failure_keeps_buffers :
    calls_platform (efi_capsule_trigger_update (sample_env (persist_image 4096) 5) st_skip)
      = true ∧
    platform_status (sample_env (persist_image 4096) 5) st_skip.csh_jump (persist_image 4096)
      ≠ 0 ∧
    (efi_capsule_trigger_update (sample_env (persist_image 4096) 5) st_skip).ret = 5 ∧
    (read_in_data (sample_env (persist_image 4096) 5) (persist_image 4096)
      st_skip.csh_jump).2.chunks.map Chunk.base = [0xC1000000] ∧
    desc_block_ptr (sample_env (persist_image 4096) 5) (persist_image 4096) = 0xC2000000 ∧
    kfrees (efi_capsule_trigger_update (sample_env (persist_image 4096) 5) st_skip).trace
      = [] := by
  refine ⟨sample_persist_calls 5, by decide, ?_, ?_, rfl, ?_⟩
  · rw [sample_persist_run]
  · rw [read_in_data_one_chunk _ _ _ (by decide) (by decide) (by decide)]
    simp only [List.map_cons, List.map_nil, sample_env, Nat.mul_zero, Nat.add_zero]
  · rw [sample_persist_run]
    simp [kfrees]

/-- C7, counterexample: for an empty image no header is located (`chdr` stays
`NULL`, no chunk is consumed), yet the platform call is made, with a `NULL`
header pointer, and the run returns its status 0 instead of an error. -/
theorem C7_empty_image_calls_platform :
    (read_in_data (sample_env (zero_image 0) 0) (zero_image 0) st_skip.csh_jump).2.chdr
      = none ∧
    (read_in_data (sample_env (zero_image 0) 0) (zero_image 0) st_skip.csh_jump).2.i = 0 ∧
    calls_platform (efi_capsule_trigger_update (sample_env (zero_image 0) 0) st_skip) = true ∧
    (efi_capsule_trigger_update (sample_env (zero_image 0) 0) st_skip).ret = 0 := by
  have ht := trigger_empty (sample_env (zero_image 0) 0) st_skip (zero_image 0) rfl rfl rfl
    (by decide)
  rw [read_in_data_empty _ _ _ rfl, ht]
  refine ⟨rfl, rfl, ?_, rfl⟩
  simp [calls_platform, is_update_capsule]

/-- C7, amended: for an image of length 0 no header is located (zero chunks
are consumed and `chdr` stays `NULL`), and `efi_capsule_trigger_update` makes
no check for it: when the table allocation succeeds it invokes the platform
call once with a `NULL` header pointer, returns the platform status, and
releases the descriptor table and the firmware. -/
theorem C7_empty_image_submitted (env : Env) (st : State) (fw : firmware)
    (hp : st.path_set = true) (hrf : env.request_firmware st.fpath = (0, some fw))
    (h0 : fw.size = 0) (hz : env.kzalloc 32 ≠ 0) :
    (read_in_data env fw st.csh_jump).2.chdr = none ∧
    (read_in_data env fw st.csh_jump).2.i = 0 ∧
    efi_capsule_trigger_update env st =
      { ret := env.update_capsule 0 1 (env.__pa (env.kzalloc 32))
        trace := [Event.request_firmware st.fpath, Event.kzalloc 32,
          Event.update_capsule 0 1 (env.__pa (env.kzalloc 32)),
          Event.kfree (env.kzalloc 32), Event.release_firmware]
        globals := st } := by
  rw [read_in_data_empty env fw _ h0]
  exact ⟨rfl, rfl, trigger_empty env st fw hp hrf h0 hz⟩

/-- Witness for `C7_empty_image_submitted`: the empty image. -/
theorem C7_empty_image_submitted_witness :
    st_noskip.path_set = true ∧ (zero_image 0).size = 0 ∧
    (sample_env (zero_image 0) 7).kzalloc 32 ≠ 0 ∧
    (read_in_data (sample_env (zero_image 0) 7) (zero_image 0) st_noskip.csh_jump).2.chdr
      = none ∧
    (read_in_data (sample_env (zero_image 0) 7) (zero_image 0) st_noskip.csh_jump).2.i = 0 ∧
    efi_capsule_trigger_update (sample_env (zero_image 0) 7) st_noskip =
      { ret := (sample_env (zero_image 0) 7).update_capsule 0 1
          ((sample_env (zero_image 0) 7).__pa ((sample_env (zero_image 0) 7).kzalloc 32))
        trace := [Event.request_firmware st_noskip.fpath, Event.kzalloc 32,
          Event.update_capsule 0 1
            ((sample_env (zero_image 0) 7).__pa ((sample_env (zero_image 0) 7).kzalloc 32)),
          Event.kfree ((sample_env (zero_image 0) 7).kzalloc 32), Event.release_firmware]
        globals := st_noskip } :=
  ⟨rfl, rfl, by decide,
    C7_empty_image_submitted (sample_env (zero_image 0) 7) st_noskip (zero_image 0)
      rfl rfl rfl (by decide)⟩

/-- C8, counterexample: with header skip enabled and an image of 500 bytes
(shorter than the skip offset 1024) the input is not rejected: the platform
call is made and the run returns its status 0. -/
theorem C8_short_image_not_rejected :
    st_skip.csh_jump = 1024 ∧ (zero_image 500).size < st_skip.csh_jump ∧
    calls_platform (efi_capsule_trigger_update (sample_env (zero_image 500) 0) st_skip)
      = true ∧
    (efi_capsule_trigger_update (sample_env (zero_image 500) 0) st_skip).ret = 0 := by
  have ht := trigger_one_chunk (sample_env (zero_image 500) 0) st_skip (zero_image 500)
    rfl rfl (by decide) (by decide) (by decide) (by decide)
  rw [ht]
  refine ⟨rfl, by decide, ?_, rfl⟩
  simp [calls_platform, is_update_capsule]

/-- C8, amended: with header skip enabled and an image with `0 < L < 1024`,
`efi_capsule_trigger_update` does not validate the skip offset against the
first chunk: when the allocations succeed one chunk is consumed, the first
entry's length is computed by the `u32` subtraction `data_len - csh_jump`, its
address is the chunk base plus the skip, and the table is submitted to the
platform, whose status is returned. -/
theorem C8_short_image_submitted (env : Env) (st : State) (fw : firmware)
    (hp : st.path_set = true) (hskip : st.csh_jump = CSH_HDR_SIZE)
    (hrf : env.request_firmware st.fpath = (0, some fw))
    (h0 : 0 < fw.size) (h1 : fw.size < CSH_HDR_SIZE)
    (hz : desc_block_ptr env fw ≠ 0) (hk : env.kmalloc 0 ≠ 0) :
    calls_platform (efi_capsule_trigger_update env st) = true ∧
    (efi_capsule_trigger_update env st).ret =
      env.update_capsule (env.kmalloc 0 + CSH_HDR_SIZE) 1 (env.__pa (desc_block_ptr env fw)) ∧
    ∃ c, (read_in_data env fw st.csh_jump).2.chunks = [c] ∧
      written (read_in_data env fw st.csh_jump).2 =
        [{ length := (c.data_len + U32 - CSH_HDR_SIZE) % U32
           data_block := env.__pa (c.base + CSH_HDR_SIZE) }] := by
  have h1' : fw.size ≤ MAX_CHUNK := by
    unfold CSH_HDR_SIZE at h1; unfold MAX_CHUNK PAGE_SIZE; omega
  have ht := trigger_one_chunk env st fw hp hrf h0 h1' hz hk
  have hr := read_in_data_one_chunk env fw st.csh_jump h0 h1' hk
  rw [ht, hr, hskip]
  refine ⟨?_, rfl, _, rfl, ?_⟩
  · simp [calls_platform, is_update_capsule]
  · simp [written]

/-- Witness for `C8_short_image_submitted`: an image of 500 bytes. -/
theorem C8_short_image_submitted_witness :
    st_skip.csh_jump = CSH_HDR_SIZE ∧ 0 < (zero_image 500).size ∧
    (zero_image 500).size < CSH_HDR_SIZE ∧
    calls_platform (efi_capsule_trigger_update (sample_env (zero_image 500) 0) st_skip)
      = true ∧
    (efi_capsule_trigger_update (sample_env (zero_image 500) 0) st_skip).ret =
      (sample_env (zero_image 500) 0).update_capsule
        ((sample_env (zero_image 500) 0).kmalloc 0 + CSH_HDR_SIZE) 1
        ((sample_env (zero_image 500) 0).__pa
          (desc_block_ptr (sample_env (zero_image 500) 0) (zero_image 500))) ∧
    ∃ c, (read_in_data (sample_env (zero_image 500) 0) (zero_image 500)
        st_skip.csh_jump).2.chunks = [c] ∧
      written (read_in_data (sample_env (zero_image 500) 0) (zero_image 500)
        st_skip.csh_jump).2 =
        [{ length := (c.data_len + U32 - CSH_HDR_SIZE) % U32
           data_block := (sample_env (zero_image 500) 0).__pa (c.base + CSH_HDR_SIZE) }] :=
  ⟨rfl, by decide, by decide,
    C8_short_image_submitted (sample_env (zero_image 500) 0) st_skip (zero_image 500)
      rfl rfl rfl (by decide) (by decide) (by decide) (by decide)⟩

/-! ## Claims C9 and C10: bounds on the entries and on the chunk count -/

/-- C9: for every image and for `skip = 0` or `skip = 1024`, every descriptor
entry written by the read loop (entries `0 .. i-1` of the table) has a length
that is strictly positive and at most `MAX_CHUNK = 4096`. -/
theorem C9_entry_length_bounds (env : Env) (fw : firmware) (csh_jump : Nat)
    (hcsh : csh_jump = 0 ∨ csh_jump = CSH_HDR_SIZE)
    (j : Nat) (hj : j < (read_in_data env fw csh_jump).2.i) :
    ∃ d, (read_in_data env fw csh_jump).2.desc_block[j]? = some d ∧
      0 < d.length ∧ d.length ≤ MAX_CHUNK ∧ MAX_CHUNK = 4096 := by
  obtain ⟨d, hd, h1, h2⟩ := read_loop_entries_ok env fw csh_jump (nblocks_of fw)
    (total_size_of fw) hcsh (total_size_lt fw) (nblocks_of fw) (loop_init (nblocks_of fw))
    (by simp [loop_init]) (by simp [loop_init]) (fun _ => rfl)
    (by intro j hj; simp [loop_init] at hj) j hj
  exact ⟨d, hd, h1, h2, rfl⟩

/-- Witness for `C9_entry_length_bounds`: the third entry of an image of 9000
bytes with header skip enabled. -/
theorem C9_entry_length_bounds_witness :
    2 < (read_in_data (sample_env (zero_image 9000) 0) (zero_image 9000) CSH_HDR_SIZE).2.i ∧
    ∃ d, (read_in_data (sample_env (zero_image 9000) 0) (zero_image 9000)
        CSH_HDR_SIZE).2.desc_block[2]? = some d ∧
      0 < d.length ∧ d.length ≤ MAX_CHUNK ∧ MAX_CHUNK = 4096 :=
  ⟨by decide,
    C9_entry_length_bounds (sample_env (zero_image 9000) 0) (zero_image 9000) CSH_HDR_SIZE
      (Or.inr rfl) 2 (by decide)⟩

/-- C10: for every image length `L < 2^32` the reserved descriptor count is
`nblocks = L / MAX_CHUNK + 2`, and the number of chunks consumed by the read
loop (the final value of `i`, however the loop is left) never exceeds it. -/
theorem C10_chunks_le_nblocks (env : Env) (fw : firmware) (csh_jump : Nat)
    (hL : fw.size < U32) :
    nblocks_of fw = fw.size / MAX_CHUNK + 2 ∧
    (read_in_data env fw csh_jump).2.i ≤ nblocks_of fw := by
  constructor
  · unfold nblocks_of
    apply Nat.mod_eq_of_lt
    unfold U32 at *
    unfold MAX_CHUNK PAGE_SIZE
    omega
  · exact read_loop_i_le env fw csh_jump (nblocks_of fw) (total_size_of fw) (nblocks_of fw)
      (loop_init (nblocks_of fw)) (by simp [loop_init]) (by simp [loop_init])

/-- Witness for `C10_chunks_le_nblocks`: an image of 9000 bytes. -/
theorem C10_chunks_le_nblocks_witness :
    (zero_image 9000).size < U32 ∧
    nblocks_of (zero_image 9000) = (zero_image 9000).size / MAX_CHUNK + 2 ∧
    (read_in_data (sample_env (zero_image 9000) 0) (zero_image 9000) CSH_HDR_SIZE).2.i
      ≤ nblocks_of (zero_image 9000) :=
  ⟨by decide,
    C10_chunks_le_nblocks (sample_env (zero_image 9000) 0) (zero_image 9000) CSH_HDR_SIZE
      (by decide)⟩

/-! ## Claim C11: the layout of the descriptor table -/

/-- The arguments of every platform call in the trace of a submission: the
header pointer left by the read loop, the count 1 and the physical address
of the table. -/
theorem update_capsule_args (env : Env) (csh : Nat) (fw : firmware) (a b d : Nat)
    (h : Event.update_capsule a b d ∈ (submit_firmware env csh fw).trace) :
    a = (read_in_data env fw csh).2.chdr.getD 0 ∧ b = 1 ∧
      d = env.__pa (desc_block_ptr env fw) := by
  have hc : (submit_firmware env csh fw).trace.any is_update_capsule = true :=
    List.any_eq_true.mpr ⟨_, h, rfl⟩
  rw [submit_firmware_reached env csh fw hc] at h
  have hnot : ∀ l : List Event, l.any is_update_capsule = false →
      Event.update_capsule a b d ∉ l := by
    intro l hl hm
    have := (List.any_eq_false.mp hl) _ hm
    simp [is_update_capsule] at this
  simp only [List.mem_cons, List.mem_append, reduceCtorEq, false_or] at h
  rcases h with h | h | h
  · exact absurd h (hnot _ (any_update_of_kmalloc _ (read_in_data_trace env fw csh)))
  · cases h; exact ⟨rfl, rfl, rfl⟩
  · exfalso
    split at h
    · simp at h
    · exact hnot _ (any_update_done _ _ _) h

/-- C11: the descriptor table lists the chunks in the order they were
consumed.  Entry `j` is the entry of the specification for chunk `j`: entry 0
has the address of chunk 0's base plus the skip and the length `data_len -
skip`, every later entry has the address of the chunk's base and the length
`data_len`.  The header pointer is the base of chunk 0 plus the skip, the
location that entry 0 points to, and it is the pointer passed to every
platform call.  With `skip = 0` entry 0 covers the whole first chunk. -/
theorem C11_table_layout (env : Env) (fw : firmware) (csh_jump : Nat)
    (hcsh : csh_jump = 0 ∨ csh_jump = CSH_HDR_SIZE)
    (j : Nat) (c : Chunk) (hj : (read_in_data env fw csh_jump).2.chunks[j]? = some c) :
    (read_in_data env fw csh_jump).2.desc_block[j]? = some (spec_entry env csh_jump j c) ∧
    spec_entry env csh_jump 0 c =
      { length := c.data_len - csh_jump, data_block := env.__pa (c.base + csh_jump) } ∧
    spec_entry env csh_jump (j + 1) c =
      { length := c.data_len, data_block := env.__pa c.base } ∧
    spec_entry env 0 0 c = { length := c.data_len, data_block := env.__pa c.base } ∧
    (read_in_data env fw csh_jump).2.chunks.length = (read_in_data env fw csh_jump).2.i ∧
    (read_in_data env fw csh_jump).2.chdr =
      (read_in_data env fw csh_jump).2.chunks[0]?.map (fun c0 => c0.base + csh_jump) ∧
    (∀ a b d, Event.update_capsule a b d ∈ (submit_firmware env csh_jump fw).trace →
      some a = (read_in_data env fw csh_jump).2.chunks[0]?.map
        (fun c0 => c0.base + csh_jump)) := by
  obtain ⟨_, hlen, _, hch, hent, _⟩ := read_in_data_table env fw csh_jump hcsh
  refine ⟨hent j c hj, rfl, rfl, rfl, hlen, hch, ?_⟩
  intro a b d hm
  obtain ⟨ha, _, _⟩ := update_capsule_args env csh_jump fw a b d hm
  rw [← hch, ha]
  have hne : (read_in_data env fw csh_jump).2.chunks ≠ [] := by
    intro h0; rw [h0] at hj; simp at hj
  cases hcs : (read_in_data env fw csh_jump).2.chunks with
  | nil => exact absurd hcs hne
  | cons c0 cs =>
    rw [hcs] at hch
    simp only [List.getElem?_cons_zero, Option.map_some'] at hch
    rw [hch]; rfl

/-- Witness for `C11_table_layout`: chunk 0 of an image of 3000 bytes with
header skip enabled. -/
theorem C11_table_layout_witness :
    (read_in_data (sample_env (zero_image 3000) 0) (zero_image 3000) CSH_HDR_SIZE).2.chunks[0]?
      = some { base := (sample_env (zero_image 3000) 0).kmalloc 0, data_len := MAX_CHUNK
               bytes := (List.range' 0 MAX_CHUNK).map (zero_image 3000).data } ∧
    (read_in_data (sample_env (zero_image 3000) 0) (zero_image 3000)
        CSH_HDR_SIZE).2.desc_block[0]? =
      some { length := MAX_CHUNK - CSH_HDR_SIZE
             data_block := (sample_env (zero_image 3000) 0).__pa
               ((sample_env (zero_image 3000) 0).kmalloc 0 + CSH_HDR_SIZE) } :=
  ⟨read_in_data_first_chunk _ _ _ (by decide) (by decide) (by decide),
   (C11_table_layout (sample_env (zero_image 3000) 0) (zero_image 3000) CSH_HDR_SIZE
      (Or.inr rfl) 0 _
      (read_in_data_first_chunk _ _ _ (by decide) (by decide) (by decide))).1⟩

/-! ## Claim C12: allocation failures -/

/-- The run when the descriptor table cannot be allocated. -/
theorem trigger_table_fail (env : Env) (st : State) (fw : firmware)
    (hp : st.path_set = true) (hrf : env.request_firmware st.fpath = (0, some fw))
    (hz : desc_block_ptr env fw = 0) :
    efi_capsule_trigger_update env st =
      { ret := -ENOMEM
        trace := [Event.request_firmware st.fpath,
          Event.kzalloc ((nblocks_of fw * sizeof_efi_blk_desc_t) % U32),
          Event.release_firmware]
        globals := st } := by
  rw [trigger_loaded env st fw hp hrf]
  unfold desc_block_ptr at hz
  unfold submit_firmware
  simp [hz]

/-- The run when a chunk cannot be allocated: the error is `-ENOMEM`, the
platform is not called, and the label `done` runs on the table as the loop
left it. -/
theorem trigger_alloc_fail (env : Env) (st : State) (fw : firmware)
    (hp : st.path_set = true) (hrf : env.request_firmware st.fpath = (0, some fw))
    (hz : desc_block_ptr env fw ≠ 0)
    (hr : (read_in_data env fw st.csh_jump).1 = LoopExit.alloc_fail) :
    efi_capsule_trigger_update env st =
      { ret := -ENOMEM
        trace := Event.request_firmware st.fpath ::
          Event.kzalloc ((nblocks_of fw * sizeof_efi_blk_desc_t) % U32) ::
          ((read_in_data env fw st.csh_jump).2.trace ++
            done env (desc_block_ptr env fw) (read_in_data env fw st.csh_jump).2.desc_block)
        globals := st } := by
  rw [trigger_loaded env st fw hp hrf]
  unfold desc_block_ptr at hz ⊢
  unfold submit_firmware
  generalize read_in_data env fw st.csh_jump = r at hr ⊢
  obtain ⟨e, s⟩ := r
  simp only at hr
  subst hr
  simp [hz]

/-- After a failed chunk allocation the platform is not called and the table
is the last pointer released. -/
theorem alloc_fail_teardown (env : Env) (st : State) (fw : firmware)
    (hp : st.path_set = true) (hrf : env.request_firmware st.fpath = (0, some fw))
    (hz : desc_block_ptr env fw ≠ 0)
    (hr : (read_in_data env fw st.csh_jump).1 = LoopExit.alloc_fail) :
    (efi_capsule_trigger_update env st).ret = -ENOMEM ∧
    calls_platform (efi_capsule_trigger_update env st) = false ∧
    (kfrees (efi_capsule_trigger_update env st).trace).getLast? =
      some (desc_block_ptr env fw) := by
  rw [trigger_alloc_fail env st fw hp hrf hz hr]
  refine ⟨rfl, ?_, ?_⟩
  · simp [calls_platform, is_update_capsule,
      any_update_of_kmalloc _ (read_in_data_trace env fw st.csh_jump), any_update_done]
  · dsimp only
    rw [show ∀ (a b : Event) (l : List Event), a :: b :: l = [a, b] ++ l from fun _ _ _ => rfl,
      kfrees_append, kfrees_append,
      kfrees_of_kmalloc _ (read_in_data_trace env fw st.csh_jump), kfrees_done, if_pos hz]
    rw [show kfrees [Event.request_firmware st.fpath,
        Event.kzalloc (nblocks_of fw * sizeof_efi_blk_desc_t % U32)] = [] from rfl]
    simp only [List.nil_append]
    exact List.getLast?_concat _

/-- The read loop when the first chunk is allocated and the second is not. -/
theorem read_in_data_second_alloc_fails (env : Env) (fw : firmware) (csh : Nat)
    (hL : fw.size < U32) (h1 : MAX_CHUNK < fw.size)
    (hk0 : env.kmalloc 0 ≠ 0) (hk1 : env.kmalloc 1 = 0) :
    read_in_data env fw csh = (LoopExit.alloc_fail,
      { i := 1, offset := MAX_CHUNK, chdr := some (env.kmalloc 0 + csh)
        desc_block := (List.replicate (nblocks_of fw) { length := 0, data_block := 0 }).set 0
          { length := (MAX_CHUNK + U32 - csh) % U32
            data_block := env.__pa (env.kmalloc 0 + csh) }
        chunks := [{ base := env.kmalloc 0, data_len := MAX_CHUNK
                     bytes := (List.range' 0 MAX_CHUNK).map fw.data }]
        trace := [Event.kmalloc MAX_CHUNK, Event.kmalloc MAX_CHUNK] }) := by
  have hT : total_size_of fw = fw.size := Nat.mod_eq_of_lt hL
  have hN : ∃ M, nblocks_of fw = M + 1 + 1 := by
    refine ⟨fw.size / MAX_CHUNK, ?_⟩
    unfold nblocks_of
    apply Nat.mod_eq_of_lt
    unfold U32 at *
    unfold MAX_CHUNK PAGE_SIZE
    omega
  obtain ⟨M, hM⟩ := hN
  have h0 : 0 < fw.size := by unfold MAX_CHUNK PAGE_SIZE at h1; omega
  have hl : read_len fw.size 0 = MAX_CHUNK := read_len_first fw.size hL h0
  have hm : (0 + MAX_CHUNK) % U32 = MAX_CHUNK := by decide
  unfold read_in_data
  rw [hT, hM]
  simp only [read_loop, loop_init, loop_body, hl, hm]
  simp [hk0, hk1, h0, h1]

/-- C12, the code at the failing input: for an image of 8192 bytes with header
skip enabled, the first chunk is allocated at `0xC1000000` and the second
allocation fails.  The run returns `-ENOMEM` without a platform call and
releases the table `0xC2000000`, but the pointer passed to `kfree` for the
chunk is the entry address `0xC1000400`: the chunk base is not released. -/
theorem C12_chunk_0_not_released :
    (read_in_data (oom_env (zero_image 8192) 0) (zero_image 8192) st_skip.csh_jump).1
      = LoopExit.alloc_fail ∧
    (read_in_data (oom_env (zero_image 8192) 0) (zero_image 8192)
      st_skip.csh_jump).2.chunks.map Chunk.base = [0xC1000000] ∧
    (efi_capsule_trigger_update (oom_env (zero_image 8192) 0) st_skip).ret = -ENOMEM ∧
    calls_platform (efi_capsule_trigger_update (oom_env (zero_image 8192) 0) st_skip)
      = false ∧
    kfrees (efi_capsule_trigger_update (oom_env (zero_image 8192) 0) st_skip).trace
      = [0xC1000400, 0xC2000000] := by
  have hr := read_in_data_second_alloc_fails (oom_env (zero_image 8192) 0) (zero_image 8192)
    st_skip.csh_jump (by decide) (by decide) (by decide) rfl
  have hz : desc_block_ptr (oom_env (zero_image 8192) 0) (zero_image 8192) ≠ 0 := by decide
  have ht := alloc_fail_teardown (oom_env (zero_image 8192) 0) st_skip (zero_image 8192)
    rfl rfl hz (by rw [hr])
  have hk := trigger_alloc_fail (oom_env (zero_image 8192) 0) st_skip (zero_image 8192)
    rfl rfl hz (by rw [hr])
  refine ⟨by rw [hr], ?_, ht.1, ht.2.1, ?_⟩
  · rw [hr]
    simp only [List.map_cons, List.map_nil, oom_env, if_true]
  · rw [hk, hr]
    have hN : nblocks_of (zero_image 8192) = 4 := by decide
    have hp : desc_block_ptr (oom_env (zero_image 8192) 0) (zero_image 8192) = 0xC2000000 :=
      rfl
    rw [hN, hp, show st_skip.csh_jump = CSH_HDR_SIZE from rfl]
    simp [kfrees, done, free_blocks, oom_env, sample_env, CSH_HDR_SIZE, U32,
      MAX_CHUNK, PAGE_SIZE, List.replicate]

/-! ## Claims C13 to C18: the control surface -/

/-- C13: for every buffer and count, `efi_capsule_path_store` with
`count ≤ 255` returns `count`, stores exactly the `count` bytes of the buffer
as the name (followed by zero bytes up to 256) and sets `path_set`; with
`count ≥ 256` it returns `-EINVAL` and leaves the globals as they were. -/
theorem C13_path_store (st : State) (buf : Nat → Nat) (count : Nat) :
    if count ≤ 255 then
      (efi_capsule_path_store st buf count).2 = (count : Int) ∧
      (efi_capsule_path_store st buf count).1.path_set = true ∧
      (efi_capsule_path_store st buf count).1.fpath.take count =
        (List.range' 0 count).map buf ∧
      (efi_capsule_path_store st buf count).1.fpath.drop count =
        List.replicate (256 - count) 0 ∧
      (efi_capsule_path_store st buf count).1.fpath.length = 256 ∧
      (efi_capsule_path_store st buf count).1.csh_jump = st.csh_jump
    else
      efi_capsule_path_store st buf count = (st, -EINVAL) := by
  have hlen : ((List.range' 0 count).map buf).length = count := by
    rw [List.length_map, List.length_range']
  unfold efi_capsule_path_store MAX_PATH
  by_cases hc : count ≤ 255
  · rw [if_pos hc, if_neg (by omega)]
    refine ⟨rfl, rfl, ?_, ?_, ?_, rfl⟩
    · dsimp only
      rw [List.take_append_of_le_length (by omega), List.take_of_length_le (by omega)]
    · dsimp only
      rw [List.drop_append_of_le_length (by omega), List.drop_of_length_le (by omega)]
      rfl
    · dsimp only
      rw [List.length_append, hlen, List.length_replicate]
      omega
  · rw [if_neg hc, if_pos (by omega)]

theorem countP_update_of_any (l : List Event) (h : l.any is_update_capsule = false) :
    l.countP is_update_capsule = 0 := by
  rw [List.countP_eq_zero]
  intro e he
  have := (List.any_eq_false.mp h) e he
  simpa using this

theorem to_ssize_of_lt (count : Nat) (h : count < 2 ^ 31) : to_ssize count = (count : Int) := by
  have hm : count % U32 = count := Nat.mod_eq_of_lt (by unfold U32; omega)
  unfold to_ssize
  rw [hm, if_pos h]

/-- C14: when the platform call is reached, `efi_capsule_trigger_update` makes
it exactly once and returns its status unchanged; for a write of
`count < 2^31` bytes (the counts that the 32-bit `ssize_t` return value can
hold) `efi_capsule_update_store` then returns `count` when that status is 0
and the status otherwise, and in general returns `count` when the trigger
returned 0 and the trigger's error code otherwise. -/
theorem C14_status_returned (env : Env) (st : State) (fw : firmware) (count : Nat)
    (hp : st.path_set = true) (hrf : env.request_firmware st.fpath = (0, some fw))
    (hcall : calls_platform (efi_capsule_trigger_update env st) = true)
    (hcount : count < 2 ^ 31) :
    (efi_capsule_trigger_update env st).trace.countP is_update_capsule = 1 ∧
    (efi_capsule_trigger_update env st).ret = platform_status env st.csh_jump fw ∧
    (efi_capsule_update_store env st count).ret =
      (if platform_status env st.csh_jump fw = 0 then (count : Int)
       else platform_status env st.csh_jump fw) ∧
    (efi_capsule_update_store env st count).ret =
      (if (efi_capsule_trigger_update env st).ret = 0 then (count : Int)
       else (efi_capsule_trigger_update env st).ret) ∧
    (efi_capsule_update_store env st count).trace = (efi_capsule_trigger_update env st).trace := by
  rw [calls_platform_trigger env st fw hp hrf] at hcall
  have hret : (efi_capsule_trigger_update env st).ret = platform_status env st.csh_jump fw := by
    rw [trigger_loaded env st fw hp hrf, submit_firmware_reached env _ fw hcall]
  have hstore : (efi_capsule_update_store env st count).ret =
      (if (efi_capsule_trigger_update env st).ret = 0 then (count : Int)
       else (efi_capsule_trigger_update env st).ret) := by
    unfold efi_capsule_update_store
    dsimp only
    rw [to_ssize_of_lt count hcount]
  refine ⟨?_, hret, ?_, hstore, rfl⟩
  · rw [trigger_loaded env st fw hp hrf, submit_firmware_reached env _ fw hcall]
    dsimp only
    rw [show ∀ (a b c : Event) (l l' : List Event),
      a :: b :: (l ++ c :: l') = [a, b] ++ (l ++ ([c] ++ l')) from fun _ _ _ _ _ => rfl,
      List.countP_append, List.countP_append, List.countP_append,
      countP_update_of_any _ (any_update_of_kmalloc _ (read_in_data_trace env fw st.csh_jump))]
    have htail : (if persist_requested env st.csh_jump fw = true then [Event.release_firmware]
        else done env (desc_block_ptr env fw)
          (read_in_data env fw st.csh_jump).2.desc_block).countP is_update_capsule = 0 := by
      apply countP_update_of_any
      split
      · rfl
      · exact any_update_done _ _ _
    rw [htail]
    rfl
  · rw [hstore, hret]

/-- Witness for `C14_status_returned`: an image of 3000 bytes, platform status
5, a write of 1 byte to the trigger. -/
theorem C14_status_returned_witness :
    calls_platform (efi_capsule_trigger_update (sample_env (zero_image 3000) 5) st_skip)
      = true ∧
    (1 : Nat) < 2 ^ 31 ∧
    (efi_capsule_trigger_update (sample_env (zero_image 3000) 5) st_skip).trace.countP
      is_update_capsule = 1 ∧
    (efi_capsule_trigger_update (sample_env (zero_image 3000) 5) st_skip).ret =
      platform_status (sample_env (zero_image 3000) 5) st_skip.csh_jump (zero_image 3000) ∧
    (efi_capsule_update_store (sample_env (zero_image 3000) 5) st_skip 1).ret =
      (if platform_status (sample_env (zero_image 3000) 5) st_skip.csh_jump (zero_image 3000)
          = 0 then ((1 : Nat) : Int)
       else platform_status (sample_env (zero_image 3000) 5) st_skip.csh_jump
          (zero_image 3000)) ∧
    (efi_capsule_update_store (sample_env (zero_image 3000) 5) st_skip 1).ret =
      (if (efi_capsule_trigger_update (sample_env (zero_image 3000) 5) st_skip).ret = 0 then
        ((1 : Nat) : Int)
       else (efi_capsule_trigger_update (sample_env (zero_image 3000) 5) st_skip).ret) ∧
    (efi_capsule_update_store (sample_env (zero_image 3000) 5) st_skip 1).trace =
      (efi_capsule_trigger_update (sample_env (zero_image 3000) 5) st_skip).trace :=
  have hcall : calls_platform
      (efi_capsule_trigger_update (sample_env (zero_image 3000) 5) st_skip) = true := by
    rw [trigger_one_chunk (sample_env (zero_image 3000) 5) st_skip (zero_image 3000)
      rfl rfl (by decide) (by decide) (by decide) (by decide)]
    simp [calls_platform, is_update_capsule]
  ⟨hcall, by decide,
    C14_status_returned (sample_env (zero_image 3000) 5) st_skip (zero_image 3000) 1
      rfl rfl hcall (by decide)⟩

/-- C15: in the Unconfigured state (`path_set = false`)
`efi_capsule_trigger_update` returns `-ENODEV` and makes no call at all: no
image load, no allocation, no platform call. -/
theorem C15_unconfigured (env : Env) (st : State) (hp : st.path_set = false) :
    efi_capsule_trigger_update env st = { ret := -ENODEV, trace := [], globals := st } := by
  unfold efi_capsule_trigger_update
  rw [if_pos hp]

/-- Witness for `C15_unconfigured`: the globals at load time. -/
theorem C15_unconfigured_witness :
    State.init.path_set = false ∧
    efi_capsule_trigger_update (sample_env (zero_image 3000) 0) State.init =
      { ret := -ENODEV, trace := [], globals := State.init } :=
  ⟨rfl, C15_unconfigured (sample_env (zero_image 3000) 0) State.init rfl⟩

/-- Every `return` of `efi_capsule_trigger_update` leaves the globals as the
call found them. -/
theorem trigger_globals (env : Env) (st : State) :
    (efi_capsule_trigger_update env st).globals = st := by
  unfold efi_capsule_trigger_update
  split
  · rfl
  · split
    · rfl
    · split <;> rfl

theorem update_store_globals (env : Env) (st : State) (count : Nat) :
    (efi_capsule_update_store env st count).globals = st := by
  unfold efi_capsule_update_store
  exact trigger_globals env st

theorem path_set_apply (st : State) (op : Op) (hp : st.path_set = true) :
    (op.apply st).path_set = true := by
  cases op with
  | path_store buf count =>
    show (efi_capsule_path_store st buf count).1.path_set = true
    unfold efi_capsule_path_store
    split
    · exact hp
    · rfl
  | csh_jump_store buf count =>
    show (efi_capsule_csh_jump_store st buf count).1.path_set = true
    unfold efi_capsule_csh_jump_store
    split
    · split <;> exact hp
    · exact hp
  | update_store env count =>
    show (efi_capsule_update_store env st count).globals.path_set = true
    rw [update_store_globals]
    exact hp

theorem path_set_run_ops (ops : List Op) :
    ∀ st : State, st.path_set = true → (run_ops st ops).path_set = true := by
  induction ops with
  | nil => intro st hp; exact hp
  | cons op ops ih =>
    intro st hp
    exact ih (op.apply st) (path_set_apply st op hp)

/-- C16: whatever its outcome, `efi_capsule_trigger_update` returns with the
globals `fpath`, `path_set` and `csh_jump` as it found them, and so does
`efi_capsule_update_store`; and after a name was written successfully
(`count ≤ 255`) no sequence of name writes, toggle writes and triggers
clears `path_set`. -/
theorem C16_state_only_written (st : State) (buf : Nat → Nat) (count : Nat)
    (ops : List Op) (hc : count ≤ 255) :
    (∀ env n, (efi_capsule_trigger_update env st).globals = st ∧
      (efi_capsule_update_store env st n).globals = st ∧
      (Op.update_store env n).apply st = st) ∧
    (efi_capsule_path_store st buf count).1.path_set = true ∧
    (run_ops (efi_capsule_path_store st buf count).1 ops).path_set = true := by
  have h1 : (efi_capsule_path_store st buf count).1.path_set = true := by
    unfold efi_capsule_path_store MAX_PATH
    rw [if_neg (by omega)]
  exact ⟨fun env n => ⟨trigger_globals env st, update_store_globals env st n,
    update_store_globals env st n⟩, h1, path_set_run_ops ops _ h1⟩

/-- Witness for `C16_state_only_written`: the name `fwA`, then a failed trigger,
a toggle write, a rejected name of 300 bytes and another trigger. -/
theorem C16_state_only_written_witness :
    (3 ≤ 255) ∧
    (∀ env n, (efi_capsule_trigger_update env State.init).globals = State.init ∧
      (efi_capsule_update_store env State.init n).globals = State.init ∧
      (Op.update_store env n).apply State.init = State.init) ∧
    (efi_capsule_path_store State.init (buf_of [102, 119, 65]) 3).1.path_set = true ∧
    (run_ops (efi_capsule_path_store State.init (buf_of [102, 119, 65]) 3).1
      [Op.update_store (oom_env (zero_image 8192) 0) 1,
       Op.csh_jump_store (some (buf_of [48])) 1,
       Op.path_store (buf_of []) 300,
       Op.update_store (sample_env (zero_image 3000) 5) 1]).path_set = true :=
  ⟨by decide, C16_state_only_written State.init (buf_of [102, 119, 65]) 3 _ (by decide)⟩

/-- C17, counterexample: after the byte `1` is written to the toggle the skip is
enabled and `efi_capsule_csh_jump_show` writes the two bytes `1` and newline
and returns 2; what it reports is not the one-byte string `1`. -/
theorem C17_show_ends_in_newline :
    (efi_capsule_csh_jump_store State.init (some (buf_of [49])) 1).1.csh_jump = 1024 ∧
    efi_capsule_csh_jump_show (efi_capsule_csh_jump_store State.init (some (buf_of [49])) 1).1
      = ([49, 10], 2) ∧
    (efi_capsule_csh_jump_show
      (efi_capsule_csh_jump_store State.init (some (buf_of [49])) 1).1).1 ≠ [49] := by
  decide

/-- C17, amended: for every byte sequence written to the toggle, of
`count < 2^31` bytes (the counts that the 32-bit `ssize_t` return value can
hold), `efi_capsule_csh_jump_store` returns `count` and sets the skip to 0 if
the first byte is `0` and to 1024 otherwise, leaving the name and `path_set`
as they were; a subsequent `efi_capsule_csh_jump_show` writes the line `1`
(the digit and a newline) if the skip is enabled and the line `0` otherwise,
and returns 2. -/
theorem C17_toggle (st : State) (b : Nat → Nat) (count : Nat) (hcount : count < 2 ^ 31) :
    (efi_capsule_csh_jump_store st (some b) count).2 = (count : Int) ∧
    (efi_capsule_csh_jump_store st (some b) count).1.csh_jump =
      (if b 0 = 48 then 0 else 1024) ∧
    (efi_capsule_csh_jump_store st (some b) count).1.fpath = st.fpath ∧
    (efi_capsule_csh_jump_store st (some b) count).1.path_set = st.path_set ∧
    efi_capsule_csh_jump_show (efi_capsule_csh_jump_store st (some b) count).1 =
      (if b 0 = 48 then ([48, 10], 2) else ([49, 10], 2)) := by
  have hs := to_ssize_of_lt count hcount
  unfold efi_capsule_csh_jump_store efi_capsule_csh_jump_show
  by_cases h : b 0 = 48
  · simp [h, hs]
  · simp [h, hs, CSH_HDR_SIZE]

/-- Witness for `C17_toggle`: the byte `0` written to the toggle. -/
theorem C17_toggle_witness :
    (1 : Nat) < 2 ^ 31 ∧
    (efi_capsule_csh_jump_store State.init (some (buf_of [48])) 1).2 = ((1 : Nat) : Int) ∧
    (efi_capsule_csh_jump_store State.init (some (buf_of [48])) 1).1.csh_jump =
      (if buf_of [48] 0 = 48 then 0 else 1024) ∧
    (efi_capsule_csh_jump_store State.init (some (buf_of [48])) 1).1.fpath
      = State.init.fpath ∧
    (efi_capsule_csh_jump_store State.init (some (buf_of [48])) 1).1.path_set
      = State.init.path_set ∧
    efi_capsule_csh_jump_show (efi_capsule_csh_jump_store State.init (some (buf_of [48])) 1).1 =
      (if buf_of [48] 0 = 48 then ([48, 10], 2) else ([49, 10], 2)) :=
  ⟨by decide, C17_toggle State.init (buf_of [48]) 1 (by decide)⟩

/-- C18, the code at the failing input: the name `%%` (two bytes, no NUL) is
accepted by `efi_capsule_path_store`, which returns 2, but
`efi_capsule_path_show` passes the name to `snprintf` as the format: it
writes the single byte `%` and returns 1. -/
theorem C18_show_of_percent_name :
    (efi_capsule_path_store State.init (buf_of [37, 37]) 2).2 = 2 ∧
    c_string (efi_capsule_path_store State.init (buf_of [37, 37]) 2).1.fpath = [37, 37] ∧
    efi_capsule_path_show (efi_capsule_path_store State.init (buf_of [37, 37]) 2).1
      = some ([37], 1) := by
  refine ⟨by decide, ?_, ?_⟩
  · decide
  · decide

theorem c_string_append_zero (l r : List Nat) (h : ∀ x ∈ l, x ≠ 0) :
    c_string (l ++ 0 :: r) = l := by
  unfold c_string
  induction l with
  | nil => simp
  | cons a l ih =>
    have ha : a ≠ 0 := h a (List.mem_cons_self a l)
    simp only [List.cons_append, List.takeWhile_cons, ha, ne_eq, not_false_eq_true,
      decide_True, if_true]
    rw [ih (fun x hx => h x (List.mem_cons_of_mem a hx))]

theorem format_no_args_plain (l : List Nat) (h : ∀ x ∈ l, x ≠ 37) :
    format_no_args l = some l := by
  induction l with
  | nil => rfl
  | cons a l ih =>
    have ha : a ≠ 37 := h a (List.mem_cons_self a l)
    have hl := ih (fun x hx => h x (List.mem_cons_of_mem a hx))
    unfold format_no_args
    split
    · rename_i heq; cases heq
    · rename_i heq; cases heq; exact absurd rfl ha
    · rename_i heq; cases heq; exact absurd rfl ha
    · rename_i heq; cases heq; exact absurd rfl ha
    · rename_i c rest _ _ _ heq
      cases heq
      rw [hl]; rfl

/-- Outside the failing inputs C18 holds: a name of at most 255 bytes with no
NUL and no `%` is shown as it was written, with its length returned, and
before any name was written the empty string is shown. -/
theorem path_show_plain (st : State) (buf : Nat → Nat) (count : Nat) (hc : count ≤ 255)
    (hnul : ∀ k, k < count → buf k ≠ 0) (hpct : ∀ k, k < count → buf k ≠ 37) :
    efi_capsule_path_show (efi_capsule_path_store st buf count).1 =
      some ((List.range' 0 count).map buf, (count : Int)) ∧
    efi_capsule_path_show State.init = some ([], 0) := by
  refine ⟨?_, by decide⟩
  have hmem : ∀ x ∈ (List.range' 0 count).map buf, ∃ k, k < count ∧ buf k = x := by
    intro x hx
    rw [List.mem_map] at hx
    obtain ⟨k, hk, rfl⟩ := hx
    rw [List.mem_range'_1] at hk
    exact ⟨k, by omega, rfl⟩
  have hrep : List.replicate (MAX_PATH - count) 0 = 0 :: List.replicate (255 - count) 0 := by
    unfold MAX_PATH
    rw [show 256 - count = (255 - count) + 1 by omega]
    rfl
  have hlen : ((List.range' 0 count).map buf).length = count := by
    rw [List.length_map, List.length_range']
  unfold efi_capsule_path_show efi_capsule_path_store snprintf_no_args
  rw [if_neg (by unfold MAX_PATH; omega)]
  dsimp only
  rw [hrep, c_string_append_zero _ _ (fun x hx => by
      obtain ⟨k, hk, rfl⟩ := hmem x hx; exact hnul k hk),
    format_no_args_plain _ (fun x hx => by
      obtain ⟨k, hk, rfl⟩ := hmem x hx; exact hpct k hk)]
  simp only [Option.map_some', hlen]
  rw [List.take_of_length_le (by rw [hlen]; unfold MAX_PATH; omega)]

/-! ## Claims C19 and C20: the first chunk and the chunk count -/

/-- C19: for every image length `0 < L < 2^32`, when the first chunk is
allocated its recorded `data_len` is exactly `MAX_CHUNK = 4096`, whatever
`L` is; so for `csh_jump` 0 or `0x400` the first entry's length is
`4096 - csh_jump` (4096 or 3072) and the `u32` subtraction
`data_len - csh_jump` does not wrap. -/
theorem C19_first_chunk_full (env : Env) (fw : firmware) (csh_jump : Nat)
    (h0 : 0 < fw.size) (hL : fw.size < U32) (hk : env.kmalloc 0 ≠ 0)
    (hcsh : csh_jump = 0 ∨ csh_jump = CSH_HDR_SIZE) :
    ∃ c, (read_in_data env fw csh_jump).2.chunks[0]? = some c ∧
      c.data_len = 4096 ∧ MAX_CHUNK = 4096 ∧
      csh_jump ≤ c.data_len ∧
      (c.data_len + U32 - csh_jump) % U32 = 4096 - csh_jump ∧
      (read_in_data env fw csh_jump).2.desc_block[0]? =
        some { length := 4096 - csh_jump, data_block := env.__pa (c.base + csh_jump) } ∧
      (4096 - csh_jump = 4096 ∨ 4096 - csh_jump = 3072) := by
  have hc := read_in_data_first_chunk env fw csh_jump h0 hL hk
  obtain ⟨_, _, _, _, hent, _⟩ := read_in_data_table env fw csh_jump hcsh
  refine ⟨_, hc, rfl, rfl, ?_, ?_, hent 0 _ hc, ?_⟩
  · show csh_jump ≤ MAX_CHUNK
    rcases hcsh with h | h <;> subst h <;> decide
  · show (MAX_CHUNK + U32 - csh_jump) % U32 = 4096 - csh_jump
    rcases hcsh with h | h <;> subst h <;> decide
  · rcases hcsh with h | h <;> subst h <;> decide

/-- Witness for `C19_first_chunk_full`: an image of 3000 bytes with header skip
enabled. -/
theorem C19_first_chunk_full_witness :
    0 < (zero_image 3000).size ∧ (zero_image 3000).size < U32 ∧
    ∃ c, (read_in_data (sample_env (zero_image 3000) 0) (zero_image 3000)
        CSH_HDR_SIZE).2.chunks[0]? = some c ∧
      c.data_len = 4096 ∧ MAX_CHUNK = 4096 ∧
      CSH_HDR_SIZE ≤ c.data_len ∧
      (c.data_len + U32 - CSH_HDR_SIZE) % U32 = 4096 - CSH_HDR_SIZE ∧
      (read_in_data (sample_env (zero_image 3000) 0) (zero_image 3000)
        CSH_HDR_SIZE).2.desc_block[0]? =
        some { length := 4096 - CSH_HDR_SIZE
               data_block := (sample_env (zero_image 3000) 0).__pa (c.base + CSH_HDR_SIZE) } ∧
      (4096 - CSH_HDR_SIZE = 4096 ∨ 4096 - CSH_HDR_SIZE = 3072) :=
  ⟨by decide, by decide,
    C19_first_chunk_full (sample_env (zero_image 3000) 0) (zero_image 3000) CSH_HDR_SIZE
      (by decide) (by decide) (by decide) (Or.inr rfl)⟩

/-- C20: for every image length `L < 2^32`, if no chunk allocation fails the
read loop runs to its end and consumes exactly `ceil(L / MAX_CHUNK)` chunks,
at most `nblocks - 1 = L / MAX_CHUNK + 1`; the sanity check inside the loop
is never taken, the check `i > nblocks - 1` after the loop is false, and
the entry after the used entries is still all zero. -/
theorem C20_chunk_count (env : Env) (fw : firmware) (csh_jump : Nat)
    (hL : fw.size < U32) (hcsh : csh_jump = 0 ∨ csh_jump = CSH_HDR_SIZE)
    (hk : ∀ k, env.kmalloc k ≠ 0) :
    (read_in_data env fw csh_jump).1 = LoopExit.completed ∧
    (read_in_data env fw csh_jump).2.i = (fw.size + 4095) / 4096 ∧
    (read_in_data env fw csh_jump).2.i ≤ nblocks_of fw - 1 ∧
    nblocks_of fw - 1 = fw.size / 4096 + 1 ∧
    ¬ ((read_in_data env fw csh_jump).2.i > (nblocks_of fw + U32 - 1) % U32) ∧
    (read_in_data env fw csh_jump).2.desc_block[(read_in_data env fw csh_jump).2.i]? =
      some { length := 0, data_block := 0 } := by
  have hN : nblocks_of fw = fw.size / 4096 + 2 := by
    unfold nblocks_of
    apply Nat.mod_eq_of_lt
    unfold U32 at *
    unfold MAX_CHUNK PAGE_SIZE
    omega
  have hwrap : (nblocks_of fw + U32 - 1) % U32 = fw.size / 4096 + 1 := by
    rw [hN]
    unfold U32 at *
    rw [show fw.size / 4096 + 2 + 2 ^ 32 - 1 = (fw.size / 4096 + 1) + 2 ^ 32 by omega,
      Nat.add_mod_right]
    exact Nat.mod_eq_of_lt (by omega)
  obtain ⟨_, _, _, _, _, hzero⟩ := read_in_data_table env fw csh_jump hcsh
  have key : (read_in_data env fw csh_jump).1 = LoopExit.completed ∧
      (read_in_data env fw csh_jump).2.i = (fw.size + 4095) / 4096 := by
    by_cases h0 : fw.size = 0
    · rw [read_in_data_empty env fw csh_jump h0, h0]
      exact ⟨rfl, rfl⟩
    · by_cases h1 : fw.size < MAX_CHUNK
      · rw [read_in_data_one_chunk env fw csh_jump (by omega) (by omega) (hk 0)]
        refine ⟨rfl, ?_⟩
        unfold MAX_CHUNK PAGE_SIZE at h1
        dsimp only
        omega
      · have hcs : csh_jump ≤ MAX_CHUNK := by
          rcases hcsh with h | h <;> subst h <;> decide
        obtain ⟨he, _, _, hlo, hhi, _⟩ :=
          read_in_data_page env fw csh_jump hL (by omega) hcs hk
        exact ⟨he, by omega⟩
  obtain ⟨he, hi⟩ := key
  refine ⟨he, hi, ?_, ?_, ?_, ?_⟩
  · rw [hi, hN]; omega
  · rw [hN]; omega
  · rw [hwrap, hi]; omega
  · apply hzero _ (Nat.le_refl _)
    rw [hi, hN]; omega

/-- Witness for `C20_chunk_count`: an image of 9000 bytes. -/
theorem C20_chunk_count_witness :
    (zero_image 9000).size < U32 ∧
    (read_in_data (sample_env (zero_image 9000) 0) (zero_image 9000) CSH_HDR_SIZE).1
      = LoopExit.completed ∧
    (read_in_data (sample_env (zero_image 9000) 0) (zero_image 9000) CSH_HDR_SIZE).2.i
      = ((zero_image 9000).size + 4095) / 4096 ∧
    (read_in_data (sample_env (zero_image 9000) 0) (zero_image 9000) CSH_HDR_SIZE).2.i
      ≤ nblocks_of (zero_image 9000) - 1 ∧
    nblocks_of (zero_image 9000) - 1 = (zero_image 9000).size / 4096 + 1 ∧
    ¬ ((read_in_data (sample_env (zero_image 9000) 0) (zero_image 9000) CSH_HDR_SIZE).2.i
      > (nblocks_of (zero_image 9000) + U32 - 1) % U32) ∧
    (read_in_data (sample_env (zero_image 9000) 0) (zero_image 9000)
      CSH_HDR_SIZE).2.desc_block[(read_in_data (sample_env (zero_image 9000) 0)
        (zero_image 9000) CSH_HDR_SIZE).2.i]? = some { length := 0, data_block := 0 } :=
  ⟨by decide,
    C20_chunk_count (sample_env (zero_image 9000) 0) (zero_image 9000) CSH_HDR_SIZE
      (by decide) (Or.inr rfl) (by intro k; simp [sample_env])⟩

end EfiCapsule
